import Mathlib

/-!
Verification development for the correlation module of `rijnagent.py`
(functions `interpolate_series`, lines 173-183, and `compute_lag_hours`,
lines 185-221).

Modelling conventions (shallow embedding):

* Timestamps and measured values are Python floats; they are modelled by
  exact rationals `ℚ` (exact-real semantics of the arithmetic the code
  performs).  Grid times produced by `np.arange` over integers are `ℤ`.
* `sorted(points, key=lambda x: x[0])` is a stable sort by timestamp.  It is
  modelled by `List.insertionSort` with the reflexive relation on the first
  component, which is the same stable sort (equal-timestamp pairs keep their
  input order).  Note that the code never deduplicates timestamps.
* `np.interp(x, t, v)` (for `t` non-decreasing) returns `v[0]` for
  `x < t[0]`, `v[-1]` for `x >= t[-1]`, and otherwise interpolates linearly
  on the interval `[t[j], t[j+1])` where `j` is the largest index with
  `t[j] <= x` (for duplicated timestamps this picks the last duplicate,
  matching numpy's search).  `npInterp` below walks the sorted list keeping
  exactly that invariant.
* `np.std(a)` is the population standard deviation `sqrt(ssd a / len a)`;
  over the reals it is `0` exactly when the sum of squared deviations
  `ssd a` is `0`.  For an empty array `np.std` is NaN, and `NaN == 0` is
  false, so the guard `np.std(vb) == 0` fires only for nonempty arrays;
  the guard in `compute_lag_hours` below reflects that.
* The code standardises `vb` and `vt` (subtracting the mean, dividing by the
  standard deviation) before the lag search.  Standardisation is an affine
  map with positive scale applied uniformly to each array, and the Pearson
  correlation coefficient of two slices - as well as its definedness (the
  zero-variance/NaN condition) - is invariant under such maps.  The loop is
  therefore modelled on the unstandardised masked arrays; the correlation
  values compared are the same real numbers the code compares.
* `np.corrcoef(x, y)[0,1]` for equal-length arrays is
  `sxy / sqrt(sxx * syy)` with `sxy, sxx, syy` the sums of products of
  deviations from the means; it is NaN exactly when `sxx = 0` or `syy = 0`
  (NaN compares false against the running best, so NaN candidates are
  skipped).  The value is represented exactly by the pair
  `(sxy, sxx * syy)` standing for the real number `sxy / sqrt (sxx * syy)`,
  and `gtSurd` decides the strict comparison of two such values.  For
  arrays of different lengths `np.corrcoef` raises `ValueError` (the
  internal `np.concatenate` rejects mismatched shapes); this is the
  `Except.error` outcome.
* `max_lag` is a count of whole grid steps, modelled as `ℕ` (the
  application always passes the default 72).
-/

/-- Python `int()` truncation toward zero of a rational number. -/
def pyInt (q : ℚ) : ℤ := if 0 ≤ q then ⌊q⌋ else ⌈q⌉

/-- Integer `np.arange a b s` (`s > 0` in every use): the list
`a, a+s, a+2s, ...` of all `a + i*s < b`, i.e. `max (ceil ((b-a)/s)) 0`
elements.  The count is written with truncating `ℕ` division:
for `b > a` it is `((b - a) + (s-1)) / s = ceil ((b-a)/s)`, and for
`b ≤ a` the numerator is below `s` (or negative, clamped by `toNat`),
giving the empty list. -/
def arange (a b : ℤ) (s : ℕ) : List ℤ :=
  (List.range ((b - a + s - 1).toNat / s)).map (fun i : ℕ => a + (i : ℤ) * s)

/-- The stable sort by timestamp performed by
`sorted(points, key=lambda x: x[0])`.  Duplicate timestamps are retained,
in input order. -/
def sortedPoints (points : List (ℚ × ℚ)) : List (ℚ × ℚ) :=
  List.insertionSort (fun p q => p.1 ≤ q.1) points

/-- Walk of `np.interp` along the sorted sample list.  The running pair
`(t0, v0)` is the last sample with `t0 ≤ x`; on meeting the first later
sample `(t1, v1)` with `x < t1` the result is the linear interpolation
between the two, and past the end of the list the result clamps to the
last value. -/
def interpGo (x : ℚ) : ℚ → ℚ → List (ℚ × ℚ) → ℚ
  | _, v0, [] => v0
  | t0, v0, (t1, v1) :: rest =>
      if x < t1 then v0 + (v1 - v0) * (x - t0) / (t1 - t0)
      else interpGo x t1 v1 rest

/-- Exact semantics of `np.interp(x, t, v)` on the (sorted) list of
`(timestamp, value)` samples: clamp below the first timestamp, otherwise
walk with `interpGo`. -/
def npInterp (x : ℚ) : List (ℚ × ℚ) → ℚ
  | [] => 0
  | (t0, v0) :: rest => if x < t0 then v0 else interpGo x t0 v0 rest

/-- Embedding of `interpolate_series(points, step_seconds=3600)`:
sort the raw samples by timestamp (no deduplication), truncate the first
and last timestamp with `int()`, lay a uniform grid
`np.arange(t_min, t_max + 1, step_seconds)` and linearly interpolate the
samples onto it. -/
def interpolate_series (points : List (ℚ × ℚ)) (step_seconds : ℕ := 3600) :
    List ℤ × List ℚ :=
  if points = [] then ([], [])
  else
    let pts := sortedPoints points
    let t_min := pyInt pts.headI.1
    let t_max := pyInt (pts.getLastD (0, 0)).1
    let t_grid := arange t_min (t_max + 1) step_seconds
    (t_grid, t_grid.map (fun x : ℤ => npInterp (x : ℚ) pts))

/-- Sample mean `np.mean` (as a rational; `0` for the empty list). -/
def sMean (l : List ℚ) : ℚ := l.sum / (l.length : ℚ)

/-- Sum of squared deviations from the mean.  `np.std l = 0` for nonempty
`l` exactly when `ssd l = 0`. -/
def ssd (l : List ℚ) : ℚ := (l.map (fun x => (x - sMean l) ^ 2)).sum

/-- Sum of products of deviations from the respective means, over the
common length of the two arrays. -/
def sxyOf (x y : List ℚ) : ℚ :=
  ((x.zip y).map (fun p => (p.1 - sMean x) * (p.2 - sMean y))).sum

/-- Exact representation of `np.corrcoef(x, y)[0,1]`: `none` when the
coefficient is NaN (a zero-variance side), otherwise `some (a, p)`
standing for the real number `a / sqrt p` with `p > 0`. -/
def corrS (x y : List ℚ) : Option (ℚ × ℚ) :=
  if ssd x = 0 ∨ ssd y = 0 then none else some (sxyOf x y, ssd x * ssd y)

/-- Decides `c.1 / sqrt c.2 > d.1 / sqrt d.2` for pairs with positive
second components (the exact comparison the float loop performs between
the candidate correlation and the running best). -/
def gtSurd (c d : ℚ × ℚ) : Bool :=
  if 0 ≤ d.1 then decide (0 < c.1 ∧ d.1 ^ 2 * c.2 < c.1 ^ 2 * d.2)
  else decide (0 ≤ c.1 ∨ c.1 ^ 2 * d.2 < d.1 ^ 2 * c.2)

/-- The shifted slice `vt[lag:]` of the lag-search loop. -/
def sliceShift (vt : List ℚ) (lag : ℕ) : List ℚ := vt.drop lag

/-- The base slice `vb[:len(vt[lag:])]` of the lag-search loop. -/
def sliceBase (vb vt : List ℚ) (lag : ℕ) : List ℚ :=
  vb.take (sliceShift vt lag).length

/-- The `for lag in range(0, max_lag+1)` search of `compute_lag_hours`,
with `fuel` counting the remaining candidate lags.  Breaks when the lag
reaches `len(vt)` or the shifted slice has fewer than 6 samples; raises
(`Except.error`) when `np.corrcoef` receives slices of different lengths;
skips NaN correlations; otherwise keeps the first strict maximum. -/
def lagLoop (vb vt : List ℚ) : ℕ → ℕ → ℕ → ℚ × ℚ → Except Unit ℕ
  | 0, _, best_lag, _ => .ok best_lag
  | fuel + 1, lag, best_lag, best =>
    if vt.length ≤ lag then .ok best_lag
    else if (sliceShift vt lag).length < 6 then .ok best_lag
    else if (sliceBase vb vt lag).length ≠ (sliceShift vt lag).length then .error ()
    else
      match corrS (sliceBase vb vt lag) (sliceShift vt lag) with
      | none => lagLoop vb vt fuel (lag + 1) best_lag best
      | some c =>
        if gtSurd c best then lagLoop vb vt fuel (lag + 1) lag c
        else lagLoop vb vt fuel (lag + 1) best_lag best

/-- Interpolation grid of a series (`tb` resp. `tt` in the code). -/
def gridOf (points : List (ℚ × ℚ)) : List ℤ := (interpolate_series points 3600).1

/-- Interpolated values of a series (`vb` resp. `vt` in the code). -/
def valsOf (points : List (ℚ × ℚ)) : List ℚ := (interpolate_series points 3600).2

/-- Start of the overlap window: `t_start = max(tb[0], tt[0])`. -/
def windowStart (b t : List (ℚ × ℚ)) : ℤ :=
  max (gridOf b).headI (gridOf t).headI

/-- End of the overlap window: `t_end = min(tb[-1], tt[-1])`. -/
def windowEnd (b t : List (ℚ × ℚ)) : ℤ :=
  min ((gridOf b).getLastD 0) ((gridOf t).getLastD 0)

/-- Grid times retained by the window mask `(g >= t_start) & (g <= t_end)`. -/
def maskedGrid (g : List ℤ) (ws we : ℤ) : List ℤ :=
  g.filter (fun x => decide (ws ≤ x ∧ x ≤ we))

/-- Interpolated values retained by the window mask (the boolean mask is
computed on the grid array and applied to the value array of the same
length, i.e. a filter of the zipped pairs). -/
def maskedVals (g : List ℤ) (v : List ℚ) (ws we : ℤ) : List ℚ :=
  ((g.zip v).filter (fun q => decide (ws ≤ q.1 ∧ q.1 ≤ we))).map Prod.snd

/-- The masked reference array (`vb` after `vb = vb[mask_b]`). -/
def refVals (b t : List (ℚ × ℚ)) : List ℚ :=
  maskedVals (gridOf b) (valsOf b) (windowStart b t) (windowEnd b t)

/-- The masked target array (`vt` after `vt = vt[mask_t]`). -/
def tgtVals (b t : List (ℚ × ℚ)) : List ℚ :=
  maskedVals (gridOf t) (valsOf t) (windowStart b t) (windowEnd b t)

/-- Embedding of `compute_lag_hours(basel_points, target_points, max_lag=72)`.
Returns `.ok none` for the "no estimate" sentinel `None`, `.ok (some L)`
for a numeric lag, and `.error ()` when the code would propagate the
`ValueError` raised by `np.corrcoef` on slices of unequal lengths. -/
def compute_lag_hours (basel_points target_points : List (ℚ × ℚ))
    (max_lag : ℕ := 72) : Except Unit (Option ℕ) :=
  if basel_points = [] ∨ target_points = [] then .ok none
  else if (valsOf basel_points).length < 10 ∨ (valsOf target_points).length < 10 then
    .ok none
  else if windowEnd basel_points target_points - windowStart basel_points target_points
      < 6 * 3600 then .ok none
  else if (refVals basel_points target_points ≠ [] ∧
        ssd (refVals basel_points target_points) = 0) ∨
      (tgtVals basel_points target_points ≠ [] ∧
        ssd (tgtVals basel_points target_points) = 0) then .ok none
  else (lagLoop (refVals basel_points target_points)
    (tgtVals basel_points target_points) (max_lag + 1) 0 0 (-999, 1)).map some

/-- The set of lags the search loop actually evaluates: at most `max_lag`,
and with at least 6 samples left in the shifted slice. -/
def EvAt (vt : List ℚ) (m l : ℕ) : Prop := l ≤ m ∧ l + 6 ≤ vt.length

instance (vt : List ℚ) (m l : ℕ) : Decidable (EvAt vt m l) := by
  unfold EvAt; infer_instance

/-- A series sampled exactly on the hourly grid: samples at integer
timestamps `t0 + 3600*i` carrying the values of `v` (the input family used
by the self-lag property). -/
def gridSeries (t0 : ℤ) (v : List ℚ) : List (ℚ × ℚ) :=
  (List.range v.length).map (fun i : ℕ => (((t0 + 3600 * (i : ℤ) : ℤ) : ℚ), v.getD i 0))

/-! Basic facts about the statistics helpers. -/

lemma sum_sq_nonneg (l : List ℚ) (f : ℚ → ℚ) : 0 ≤ (l.map (fun x => (f x) ^ 2)).sum := by
  apply List.sum_nonneg
  intro x hx
  obtain ⟨a, _, rfl⟩ := List.mem_map.1 hx
  positivity

lemma ssd_nonneg (l : List ℚ) : 0 ≤ ssd l := sum_sq_nonneg l _

lemma pair_sum_sq_nonneg (l : List (ℚ × ℚ)) (f : ℚ × ℚ → ℚ) :
    0 ≤ (l.map (fun p => (f p) ^ 2)).sum := by
  apply List.sum_nonneg
  intro x hx
  obtain ⟨a, _, rfl⟩ := List.mem_map.1 hx
  positivity

/-- Cauchy-Schwarz inequality for a list of pairs of rationals. -/
lemma list_cauchy (l : List (ℚ × ℚ)) :
    ((l.map fun p => p.1 * p.2).sum) ^ 2 ≤
      ((l.map fun p => p.1 ^ 2).sum) * ((l.map fun p => p.2 ^ 2).sum) := by
  induction l with
  | nil => simp
  | cons h tl ih =>
    obtain ⟨x, y⟩ := h
    simp only [List.map_cons, List.sum_cons]
    set S := (tl.map fun p => p.1 * p.2).sum with hS
    set A := (tl.map fun p => p.1 ^ 2).sum with hA'
    set B := (tl.map fun p => p.2 ^ 2).sum with hB'
    have hA : 0 ≤ A := pair_sum_sq_nonneg tl _
    have hB : 0 ≤ B := pair_sum_sq_nonneg tl _
    have h1 : 0 ≤ A * B - S ^ 2 := by linarith
    have h2 : 0 ≤ x ^ 2 + A := by positivity
    rcases eq_or_lt_of_le hA with hA0 | hApos
    · have hS0 : S = 0 := by
        have : S ^ 2 ≤ 0 := by nlinarith
        nlinarith [sq_nonneg S]
      rw [hS0, ← hA0]
      nlinarith [mul_nonneg (sq_nonneg x) hB, sq_nonneg (x * y)]
    · nlinarith [mul_nonneg h2 h1, sq_nonneg (y * A - x * S), hApos]

lemma zip_sq_le_left (x y : List ℚ) (m : ℚ) :
    (((x.zip y).map fun p => (p.1 - m) ^ 2).sum) ≤ ((x.map fun a => (a - m) ^ 2).sum) := by
  induction x generalizing y with
  | nil => simp
  | cons a tl ih =>
    cases y with
    | nil =>
      simp only [List.zip_nil_right, List.map_nil, List.sum_nil, List.map_cons, List.sum_cons]
      have := sum_sq_nonneg tl (fun a => a - m)
      nlinarith [sq_nonneg (a - m)]
    | cons b tlb =>
      simp only [List.zip_cons_cons, List.map_cons, List.sum_cons]
      have := ih tlb
      linarith

lemma zip_sq_le_right (x y : List ℚ) (m : ℚ) :
    (((x.zip y).map fun p => (p.2 - m) ^ 2).sum) ≤ ((y.map fun a => (a - m) ^ 2).sum) := by
  induction x generalizing y with
  | nil => simpa using sum_sq_nonneg y (fun a => a - m)
  | cons a tl ih =>
    cases y with
    | nil => simp
    | cons b tlb =>
      simp only [List.zip_cons_cons, List.map_cons, List.sum_cons]
      have := ih tlb
      linarith

/-- A defined correlation pair `(a, p)` always satisfies the Cauchy-Schwarz
bound `a ^ 2 ≤ p` together with `0 < p`; i.e. the coefficient `a / sqrt p`
lies in `[-1, 1]`. -/
lemma corrS_prop {x y : List ℚ} {c : ℚ × ℚ} (h : corrS x y = some c) :
    c.1 ^ 2 ≤ c.2 ∧ 0 < c.2 := by
  unfold corrS at h
  by_cases hz : ssd x = 0 ∨ ssd y = 0
  · simp [hz] at h
  · simp only [hz, if_false, Option.some.injEq] at h
    push_neg at hz
    have hx : 0 < ssd x := lt_of_le_of_ne (ssd_nonneg x) (Ne.symm hz.1)
    have hy : 0 < ssd y := lt_of_le_of_ne (ssd_nonneg y) (Ne.symm hz.2)
    subst h
    constructor
    · have key := list_cauchy ((x.zip y).map (fun p => (p.1 - sMean x, p.2 - sMean y)))
      simp only [List.map_map, Function.comp_def] at key
      have e1 : sxyOf x y = ((x.zip y).map fun p => (p.1 - sMean x) * (p.2 - sMean y)).sum := rfl
      have l1 := zip_sq_le_left x y (sMean x)
      have l2 := zip_sq_le_right x y (sMean y)
      have h1 : 0 ≤ (((x.zip y)).map fun p => (p.1 - sMean x) ^ 2).sum :=
        pair_sum_sq_nonneg _ _
      have h2 : 0 ≤ (((x.zip y)).map fun p => (p.2 - sMean y) ^ 2).sum :=
        pair_sum_sq_nonneg _ _
      calc (sxyOf x y) ^ 2
          ≤ ((((x.zip y)).map fun p => (p.1 - sMean x) ^ 2).sum) *
              ((((x.zip y)).map fun p => (p.2 - sMean y) ^ 2).sum) := by
            rw [e1]; exact key
        _ ≤ ssd x * ssd y := by
            unfold ssd
            exact mul_le_mul l1 l2 h2 (le_trans h1 l1)
    · exact mul_pos hx hy

/-- Correlating a list with itself gives numerator `ssd x`. -/
lemma sxyOf_self (x : List ℚ) : sxyOf x x = ssd x := by
  unfold sxyOf ssd
  have h : ∀ (m : ℚ), (((x.zip x)).map fun p => (p.1 - m) * (p.2 - m)).sum
      = (x.map fun a => (a - m) ^ 2).sum := by
    intro m
    induction x with
    | nil => simp
    | cons a tl ih =>
      simp only [List.zip_cons_cons, List.map_cons, List.sum_cons, ih]
      ring_nf
  exact h (sMean x)

/-! The exact surd comparison agrees with the real comparison of the
correlation values it represents. -/

lemma gtSurd_iff (a p b q : ℚ) (hp : 0 < p) (hq : 0 < q) :
    gtSurd (a, p) (b, q) = true ↔
      (b : ℝ) / Real.sqrt (q : ℝ) < (a : ℝ) / Real.sqrt (p : ℝ) := by
  have hp' : (0 : ℝ) < (p : ℝ) := by exact_mod_cast hp
  have hq' : (0 : ℝ) < (q : ℝ) := by exact_mod_cast hq
  have hsp : 0 < Real.sqrt (p : ℝ) := Real.sqrt_pos.2 hp'
  have hsq : 0 < Real.sqrt (q : ℝ) := Real.sqrt_pos.2 hq'
  rw [div_lt_div_iff₀ hsq hsp]
  have spsq : Real.sqrt (p : ℝ) ^ 2 = (p : ℝ) := Real.sq_sqrt hp'.le
  have sqsq : Real.sqrt (q : ℝ) ^ 2 = (q : ℝ) := Real.sq_sqrt hq'.le
  unfold gtSurd
  dsimp only
  by_cases hb : (0 : ℚ) ≤ b
  · have hb' : (0 : ℝ) ≤ (b : ℝ) := by exact_mod_cast hb
    rw [if_pos hb, decide_eq_true_eq]
    constructor
    · rintro ⟨ha, hlt⟩
      have ha' : (0 : ℝ) < (a : ℝ) := by exact_mod_cast ha
      have hlt' : (b : ℝ) ^ 2 * (p : ℝ) < (a : ℝ) ^ 2 * (q : ℝ) := by exact_mod_cast hlt
      by_contra hle
      push_neg at hle
      have h1 : 0 < (a : ℝ) * Real.sqrt (q : ℝ) := mul_pos ha' hsq
      have h2 : ((a : ℝ) * Real.sqrt (q : ℝ)) ^ 2 ≤ ((b : ℝ) * Real.sqrt (p : ℝ)) ^ 2 :=
        pow_le_pow_left₀ h1.le hle 2
      rw [mul_pow, mul_pow, spsq, sqsq] at h2
      linarith
    · intro hlt
      have ha' : (0 : ℝ) < (a : ℝ) := by
        by_contra hle
        push_neg at hle
        have h3 : (a : ℝ) * Real.sqrt (q : ℝ) ≤ 0 := mul_nonpos_of_nonpos_of_nonneg hle hsq.le
        have hbp : 0 ≤ (b : ℝ) * Real.sqrt (p : ℝ) := mul_nonneg hb' hsp.le
        linarith
      refine ⟨by exact_mod_cast ha', ?_⟩
      have h2 : ((b : ℝ) * Real.sqrt (p : ℝ)) ^ 2 < ((a : ℝ) * Real.sqrt (q : ℝ)) ^ 2 :=
        pow_lt_pow_left₀ hlt (mul_nonneg hb' hsp.le) (by norm_num)
      rw [mul_pow, mul_pow, spsq, sqsq] at h2
      exact_mod_cast h2
  · push_neg at hb
    have hb' : (b : ℝ) < 0 := by exact_mod_cast hb
    rw [if_neg (not_le.mpr hb), decide_eq_true_eq]
    constructor
    · intro h
      rcases le_or_lt 0 a with ha | ha
      · have ha' : (0 : ℝ) ≤ (a : ℝ) := by exact_mod_cast ha
        have h1 : (b : ℝ) * Real.sqrt (p : ℝ) < 0 := mul_neg_of_neg_of_pos hb' hsp
        have h2 : 0 ≤ (a : ℝ) * Real.sqrt (q : ℝ) := mul_nonneg ha' hsq.le
        linarith
      · have ha' : (a : ℝ) < 0 := by exact_mod_cast ha
        have hlt : a ^ 2 * q < b ^ 2 * p := h.resolve_left (not_le.2 ha)
        have hlt' : (a : ℝ) ^ 2 * (q : ℝ) < (b : ℝ) ^ 2 * (p : ℝ) := by exact_mod_cast hlt
        by_contra hle
        push_neg at hle
        have h1 : 0 < -((b : ℝ) * Real.sqrt (p : ℝ)) := by
          have h3 : (b : ℝ) * Real.sqrt (p : ℝ) < 0 := mul_neg_of_neg_of_pos hb' hsp
          linarith
        have h2 : (-((b : ℝ) * Real.sqrt (p : ℝ))) ^ 2 ≤ (-((a : ℝ) * Real.sqrt (q : ℝ))) ^ 2 :=
          pow_le_pow_left₀ h1.le (by linarith) 2
        rw [neg_sq, neg_sq, mul_pow, mul_pow, spsq, sqsq] at h2
        linarith
    · intro h
      rcases le_or_lt 0 a with ha | ha
      · exact Or.inl ha
      · refine Or.inr ?_
        have ha' : (a : ℝ) < 0 := by exact_mod_cast ha
        have h1 : 0 < -((a : ℝ) * Real.sqrt (q : ℝ)) := by
          have h3 : (a : ℝ) * Real.sqrt (q : ℝ) < 0 := mul_neg_of_neg_of_pos ha' hsq
          linarith
        have h2 : (-((a : ℝ) * Real.sqrt (q : ℝ))) ^ 2 < (-((b : ℝ) * Real.sqrt (p : ℝ))) ^ 2 :=
          pow_lt_pow_left₀ (by linarith) h1.le (by norm_num)
        rw [neg_sq, neg_sq, mul_pow, mul_pow, spsq, sqsq] at h2
        exact_mod_cast h2

/-- Any defined correlation beats the initial best value `-999`. -/
lemma gtSurd_init {c : ℚ × ℚ} (h1 : c.1 ^ 2 ≤ c.2) (h2 : 0 < c.2) :
    gtSurd c (-999, 1) = true := by
  unfold gtSurd
  rw [if_neg (by norm_num), decide_eq_true_eq]
  norm_num
  rcases le_or_lt 0 c.1 with ha | ha
  · exact Or.inl ha
  · refine Or.inr ?_
    linarith

/-- A defined correlation value is at most `1`. -/
lemma corr_real_le_one {c : ℚ × ℚ} (h1 : c.1 ^ 2 ≤ c.2) (h2 : 0 < c.2) :
    (c.1 : ℝ) / Real.sqrt (c.2 : ℝ) ≤ 1 := by
  have h2' : (0 : ℝ) < (c.2 : ℝ) := by exact_mod_cast h2
  have hs : 0 < Real.sqrt (c.2 : ℝ) := Real.sqrt_pos.2 h2'
  rw [div_le_one hs]
  calc (c.1 : ℝ) ≤ |(c.1 : ℝ)| := le_abs_self _
    _ = Real.sqrt ((c.1 : ℝ) ^ 2) := (Real.sqrt_sq_eq_abs _).symm
    _ ≤ Real.sqrt (c.2 : ℝ) := Real.sqrt_le_sqrt (by exact_mod_cast h1)

/-- A defined correlation value is strictly below `1` unless it is exactly
`1`, i.e. unless the numerator is positive and its square equals the
denominator. -/
lemma corr_real_lt_one {c : ℚ × ℚ} (h1 : c.1 ^ 2 ≤ c.2) (h2 : 0 < c.2)
    (h3 : ¬(0 < c.1 ∧ c.1 ^ 2 = c.2)) :
    (c.1 : ℝ) / Real.sqrt (c.2 : ℝ) < 1 := by
  have h2' : (0 : ℝ) < (c.2 : ℝ) := by exact_mod_cast h2
  have hs : 0 < Real.sqrt (c.2 : ℝ) := Real.sqrt_pos.2 h2'
  rcases le_or_lt c.1 0 with ha | ha
  · have ha' : (c.1 : ℝ) ≤ 0 := by exact_mod_cast ha
    calc (c.1 : ℝ) / Real.sqrt (c.2 : ℝ) ≤ 0 := div_nonpos_of_nonpos_of_nonneg ha' hs.le
      _ < 1 := by norm_num
  · have hne : c.1 ^ 2 ≠ c.2 := fun hcontra => h3 ⟨ha, hcontra⟩
    have hlt : c.1 ^ 2 < c.2 := lt_of_le_of_ne h1 hne
    rw [div_lt_one hs]
    have ha' : (0 : ℝ) < (c.1 : ℝ) := by exact_mod_cast ha
    calc (c.1 : ℝ) = Real.sqrt ((c.1 : ℝ) ^ 2) := by
          rw [Real.sqrt_sq ha'.le]
      _ < Real.sqrt (c.2 : ℝ) := by
          apply Real.sqrt_lt_sqrt (by positivity)
          exact_mod_cast hlt

/-- The correlation of a nonconstant list with itself is exactly `1`. -/
lemma self_corr_real_one {S : ℚ} (h : 0 < S) :
    ((S : ℝ)) / Real.sqrt (((S * S : ℚ) : ℝ)) = 1 := by
  have h' : (0 : ℝ) < (S : ℝ) := by exact_mod_cast h
  have e : ((S * S : ℚ) : ℝ) = (S : ℝ) * (S : ℝ) := by push_cast; ring
  rw [e, Real.sqrt_mul_self h'.le]
  exact div_self h'.ne.symm


lemma lagLoop_go_spec (vb vt : List ℚ) (m : ℕ) :
    ∀ (fuel lag bl : ℕ) (best : ℚ × ℚ) (L : ℕ),
      lag + fuel = m + 1 →
      ((bl = 0 ∧ best = (-999, 1) ∧
          (∀ l, l < lag → EvAt vt m l →
            corrS (sliceBase vb vt l) (sliceShift vt l) = none)) ∨
        (EvAt vt m bl ∧ bl < lag ∧
          corrS (sliceBase vb vt bl) (sliceShift vt bl) = some best ∧
          (∀ l, l < lag → EvAt vt m l → ∀ d,
            corrS (sliceBase vb vt l) (sliceShift vt l) = some d →
            (d.1 : ℝ) / Real.sqrt (d.2 : ℝ) ≤ (best.1 : ℝ) / Real.sqrt (best.2 : ℝ)) ∧
          (∀ l, l < bl → EvAt vt m l → ∀ d,
            corrS (sliceBase vb vt l) (sliceShift vt l) = some d →
            (d.1 : ℝ) / Real.sqrt (d.2 : ℝ) < (best.1 : ℝ) / Real.sqrt (best.2 : ℝ)))) →
      lagLoop vb vt fuel lag bl best = .ok L →
      ((L = 0 ∧ ∀ l, EvAt vt m l →
          corrS (sliceBase vb vt l) (sliceShift vt l) = none) ∨
        (EvAt vt m L ∧ ∃ c, corrS (sliceBase vb vt L) (sliceShift vt L) = some c ∧
          (∀ l, EvAt vt m l → ∀ d,
            corrS (sliceBase vb vt l) (sliceShift vt l) = some d →
            (d.1 : ℝ) / Real.sqrt (d.2 : ℝ) ≤ (c.1 : ℝ) / Real.sqrt (c.2 : ℝ) ∧
            (l < L → (d.1 : ℝ) / Real.sqrt (d.2 : ℝ) < (c.1 : ℝ) / Real.sqrt (c.2 : ℝ))))) := by
  intro fuel
  induction fuel with
  | zero =>
    intro lag bl best L hfuel hinv hrun
    simp only [lagLoop, Except.ok.injEq] at hrun
    subst hrun
    have hcov : ∀ l, EvAt vt m l → l < lag := by
      intro l hl; rcases hl with ⟨h1, h2⟩; omega
    rcases hinv with ⟨h0, _, hnone⟩ | ⟨hev, _, hc, hle, hlt⟩
    · exact Or.inl ⟨h0, fun l hl => hnone l (hcov l hl) hl⟩
    · refine Or.inr ⟨hev, best, hc, fun l hl d hd => ?_⟩
      exact ⟨hle l (hcov l hl) hl d hd, fun hlL => hlt l hlL hl d hd⟩
  | succ fuel ih =>
    intro lag bl best L hfuel hinv hrun
    rw [lagLoop] at hrun
    by_cases hb1 : vt.length ≤ lag
    · rw [if_pos hb1] at hrun
      simp only [Except.ok.injEq] at hrun
      subst hrun
      have hcov : ∀ l, EvAt vt m l → l < lag := by
        intro l hl; rcases hl with ⟨_, h6⟩; omega
      rcases hinv with ⟨h0, _, hnone⟩ | ⟨hev, _, hc, hle, hlt⟩
      · exact Or.inl ⟨h0, fun l hl => hnone l (hcov l hl) hl⟩
      · refine Or.inr ⟨hev, best, hc, fun l hl d hd => ?_⟩
        exact ⟨hle l (hcov l hl) hl d hd, fun hlL => hlt l hlL hl d hd⟩
    · rw [if_neg hb1] at hrun
      by_cases hb2 : (sliceShift vt lag).length < 6
      · rw [if_pos hb2] at hrun
        simp only [Except.ok.injEq] at hrun
        subst hrun
        have hlen : (sliceShift vt lag).length = vt.length - lag := by
          simp [sliceShift]
        have hcov : ∀ l, EvAt vt m l → l < lag := by
          intro l hl; rcases hl with ⟨_, h6⟩; omega
        rcases hinv with ⟨h0, _, hnone⟩ | ⟨hev, _, hc, hle, hlt⟩
        · exact Or.inl ⟨h0, fun l hl => hnone l (hcov l hl) hl⟩
        · refine Or.inr ⟨hev, best, hc, fun l hl d hd => ?_⟩
          exact ⟨hle l (hcov l hl) hl d hd, fun hlL => hlt l hlL hl d hd⟩
      · rw [if_neg hb2] at hrun
        by_cases hb3 : (sliceBase vb vt lag).length ≠ (sliceShift vt lag).length
        · rw [if_pos hb3] at hrun
          simp at hrun
        · rw [if_neg hb3] at hrun
          have hevlag : EvAt vt m lag := by
            constructor
            · omega
            · have hlen : (sliceShift vt lag).length = vt.length - lag := by
                simp [sliceShift]
              omega
          cases hcorr : corrS (sliceBase vb vt lag) (sliceShift vt lag) with
          | none =>
            simp only [hcorr] at hrun
            apply ih (lag + 1) bl best L (by omega) _ hrun
            rcases hinv with ⟨h0, hbest, hnone⟩ | ⟨hev, hbl, hc, hle, hlt⟩
            · refine Or.inl ⟨h0, hbest, fun l hl hevl => ?_⟩
              rcases Nat.lt_succ_iff_lt_or_eq.1 hl with h | h
              · exact hnone l h hevl
              · subst h; exact hcorr
            · refine Or.inr ⟨hev, by omega, hc, fun l hl hevl d hd => ?_, hlt⟩
              rcases Nat.lt_succ_iff_lt_or_eq.1 hl with h | h
              · exact hle l h hevl d hd
              · subst h; rw [hcorr] at hd; exact absurd hd (by simp)
          | some c =>
            simp only [hcorr] at hrun
            have hcprop := corrS_prop hcorr
            by_cases hgt : gtSurd c best
            · rw [if_pos hgt] at hrun
              apply ih (lag + 1) lag c L (by omega) _ hrun
              -- new invariant, case B with best := c, bl := lag
              have hbestlt : ∀ (p : ℚ × ℚ), corrS (sliceBase vb vt lag) (sliceShift vt lag) = some c →
                True := fun _ _ => trivial
              rcases hinv with ⟨h0, hbest, hnone⟩ | ⟨hev, hbl, hc, hle, hlt⟩
              · -- previous best is the initial -999; no earlier lag was defined
                refine Or.inr ⟨hevlag, by omega, hcorr, fun l hl hevl d hd => ?_,
                  fun l hl hevl d hd => ?_⟩
                · rcases Nat.lt_succ_iff_lt_or_eq.1 hl with h | h
                  · rw [hnone l h hevl] at hd; exact absurd hd (by simp)
                  · subst h; rw [hcorr] at hd
                    cases hd; exact le_refl _
                · rw [hnone l hl hevl] at hd; exact absurd hd (by simp)
              · -- previous best was the correlation at bl
                have hbprop := corrS_prop hc
                have hbc : (best.1 : ℝ) / Real.sqrt (best.2 : ℝ) <
                    (c.1 : ℝ) / Real.sqrt (c.2 : ℝ) := by
                  have := (gtSurd_iff c.1 c.2 best.1 best.2 hcprop.2 hbprop.2).1
                  exact this hgt
                refine Or.inr ⟨hevlag, by omega, hcorr, fun l hl hevl d hd => ?_,
                  fun l hl hevl d hd => ?_⟩
                · rcases Nat.lt_succ_iff_lt_or_eq.1 hl with h | h
                  · exact le_of_lt (lt_of_le_of_lt (hle l h hevl d hd) hbc)
                  · subst h; rw [hcorr] at hd; cases hd; exact le_refl _
                · exact lt_of_le_of_lt (hle l hl hevl d hd) hbc
            · rw [if_neg hgt] at hrun
              apply ih (lag + 1) bl best L (by omega) _ hrun
              rcases hinv with ⟨h0, hbest, hnone⟩ | ⟨hev, hbl, hc, hle, hlt⟩
              · -- impossible: a defined correlation always beats -999
                exfalso
                apply hgt
                rw [hbest]
                exact gtSurd_init hcprop.1 hcprop.2
              · have hbprop := corrS_prop hc
                have hcb : (c.1 : ℝ) / Real.sqrt (c.2 : ℝ) ≤
                    (best.1 : ℝ) / Real.sqrt (best.2 : ℝ) := by
                  have hiff := gtSurd_iff c.1 c.2 best.1 best.2 hcprop.2 hbprop.2
                  have : ¬ ((best.1 : ℝ) / Real.sqrt (best.2 : ℝ) <
                      (c.1 : ℝ) / Real.sqrt (c.2 : ℝ)) := by
                    intro hcontra
                    exact hgt (hiff.2 hcontra)
                  exact not_lt.1 this
                refine Or.inr ⟨hev, by omega, hc, fun l hl hevl d hd => ?_, hlt⟩
                rcases Nat.lt_succ_iff_lt_or_eq.1 hl with h | h
                · exact hle l h hevl d hd
                · subst h; rw [hcorr] at hd; cases hd; exact hcb

lemma lagLoop_no_error (vb vt : List ℚ) (h : vt.length ≤ vb.length) :
    ∀ (fuel lag bl : ℕ) (best : ℚ × ℚ), ∃ L, lagLoop vb vt fuel lag bl best = .ok L := by
  intro fuel
  induction fuel with
  | zero => intro lag bl best; exact ⟨bl, rfl⟩
  | succ fuel ih =>
    intro lag bl best
    rw [lagLoop]
    by_cases hb1 : vt.length ≤ lag
    · rw [if_pos hb1]; exact ⟨bl, rfl⟩
    · rw [if_neg hb1]
      by_cases hb2 : (sliceShift vt lag).length < 6
      · rw [if_pos hb2]; exact ⟨bl, rfl⟩
      · rw [if_neg hb2]
        have hb3 : ¬ ((sliceBase vb vt lag).length ≠ (sliceShift vt lag).length) := by
          simp only [sliceBase, sliceShift, List.length_take, List.length_drop, ne_eq,
            not_not]
          omega
        rw [if_neg hb3]
        cases corrS (sliceBase vb vt lag) (sliceShift vt lag) with
        | none => exact ih (lag + 1) bl best
        | some c =>
          dsimp only
          by_cases hgt : gtSurd c best
          · rw [if_pos hgt]; exact ih (lag + 1) lag c
          · rw [if_neg hgt]; exact ih (lag + 1) bl best

/-! Helper facts about the pipeline. -/

lemma lagLoop_spec0 (vb vt : List ℚ) (m L : ℕ)
    (h : lagLoop vb vt (m + 1) 0 0 (-999, 1) = .ok L) :
    ((L = 0 ∧ ∀ l, EvAt vt m l →
        corrS (sliceBase vb vt l) (sliceShift vt l) = none) ∨
      (EvAt vt m L ∧ ∃ c, corrS (sliceBase vb vt L) (sliceShift vt L) = some c ∧
        (∀ l, EvAt vt m l → ∀ d,
          corrS (sliceBase vb vt l) (sliceShift vt l) = some d →
          (d.1 : ℝ) / Real.sqrt (d.2 : ℝ) ≤ (c.1 : ℝ) / Real.sqrt (c.2 : ℝ) ∧
          (l < L → (d.1 : ℝ) / Real.sqrt (d.2 : ℝ) < (c.1 : ℝ) / Real.sqrt (c.2 : ℝ))))) := by
  apply lagLoop_go_spec vb vt m (m + 1) 0 0 (-999, 1) L (by omega) _ h
  exact Or.inl ⟨rfl, rfl, fun l hl => absurd hl (Nat.not_lt_zero l)⟩

lemma valsOf_length (p : List (ℚ × ℚ)) : (valsOf p).length = (gridOf p).length := by
  unfold valsOf gridOf interpolate_series
  split
  · rfl
  · dsimp only
    rw [List.length_map]

instance : IsTotal (ℚ × ℚ) (fun p q : ℚ × ℚ => p.1 ≤ q.1) := ⟨fun a b => le_total a.1 b.1⟩

instance : IsTrans (ℚ × ℚ) (fun p q : ℚ × ℚ => p.1 ≤ q.1) :=
  ⟨fun _ _ _ hab hbc => le_trans hab hbc⟩

lemma sortedPoints_sorted (points : List (ℚ × ℚ)) :
    List.Pairwise (fun p q : ℚ × ℚ => p.1 ≤ q.1) (sortedPoints points) :=
  List.sorted_insertionSort _ points

lemma sortedPoints_perm (points : List (ℚ × ℚ)) :
    (sortedPoints points).Perm points :=
  List.perm_insertionSort _ points

lemma sortedPoints_ne_nil {points : List (ℚ × ℚ)} (h : points ≠ []) :
    sortedPoints points ≠ [] := by
  intro hc
  apply h
  have hperm := sortedPoints_perm points
  rw [hc] at hperm
  exact (List.Perm.nil_eq hperm).symm

lemma headI_eq_getElem {α : Type} [Inhabited α] (l : List α) (h : l ≠ []) :
    l.headI = l.get ⟨0, List.length_pos.2 h⟩ := by
  cases l with
  | nil => exact absurd rfl h
  | cons a tl => rfl

lemma getLastD_eq_getElem {α : Type} (l : List α) (d : α) (h : l ≠ []) :
    l.getLastD d = l.get ⟨l.length - 1, by
      cases l with
      | nil => exact absurd rfl h
      | cons a tl => simp⟩ := by
  rw [List.getLastD_eq_getLast?, List.getLast?_eq_getLast l h]
  simp only [Option.getD_some]
  rw [List.get_eq_getElem]
  exact List.getLast_eq_getElem l h

lemma pyInt_mono {q r : ℚ} (h : q ≤ r) : pyInt q ≤ pyInt r := by
  unfold pyInt
  by_cases hq : 0 ≤ q
  · rw [if_pos hq, if_pos (le_trans hq h)]
    exact Int.floor_le_floor h
  · rw [if_neg hq]
    by_cases hr : 0 ≤ r
    · rw [if_pos hr]
      have h1 : (⌈q⌉ : ℤ) ≤ 0 := by
        have hq0 : q ≤ 0 := le_of_not_le hq
        exact Int.ceil_le.mpr (by exact_mod_cast hq0)
      have h2 : (0 : ℤ) ≤ ⌊r⌋ := Int.floor_nonneg.2 hr
      omega
    · rw [if_neg hr]
      exact Int.ceil_le_ceil h

lemma pyInt_intCast (z : ℤ) : pyInt (z : ℚ) = z := by
  unfold pyInt
  split
  · exact Int.floor_intCast z
  · exact Int.ceil_intCast z

lemma arange_length_of_le (a b : ℤ) (s : ℕ) (hs : 0 < s) (hab : a ≤ b) :
    (arange a (b + 1) s).length = (b - a).toNat / s + 1 := by
  unfold arange
  rw [List.length_map, List.length_range]
  have h1 : (b + 1 - a + (s : ℤ) - 1).toNat = (b - a).toNat + s := by omega
  rw [h1, Nat.add_div_right _ hs]

lemma sorted_head_le_last {l : List (ℚ × ℚ)} (h : l ≠ [])
    (hs : List.Pairwise (fun p q : ℚ × ℚ => p.1 ≤ q.1) l) :
    l.headI.1 ≤ (l.getLastD (0, 0)).1 := by
  rw [headI_eq_getElem l h, getLastD_eq_getElem l (0, 0) h]
  simp only [List.get_eq_getElem]
  have hlen : 0 < l.length := List.length_pos.2 h
  rcases Nat.lt_or_ge 1 l.length with h1 | h1
  · exact (List.pairwise_iff_getElem.1 hs) 0 (l.length - 1) (by omega) (by omega) (by omega)
  · have h0 : l.length - 1 = 0 := by omega
    simp only [h0]
    exact le_refl _

lemma interp_grid_length {p : List (ℚ × ℚ)} (hp : p ≠ []) {s : ℕ} (hs : 0 < s) :
    (interpolate_series p s).1.length =
      (pyInt ((sortedPoints p).getLastD (0, 0)).1 -
        pyInt (sortedPoints p).headI.1).toNat / s + 1 := by
  unfold interpolate_series
  rw [if_neg hp]
  dsimp only
  apply arange_length_of_le _ _ _ hs
  exact pyInt_mono (sorted_head_le_last (sortedPoints_ne_nil hp) (sortedPoints_sorted p))

lemma interp_grid_headI {p : List (ℚ × ℚ)} (hp : p ≠ []) {s : ℕ} (hs : 0 < s) :
    (interpolate_series p s).1.headI = pyInt (sortedPoints p).headI.1 := by
  have hlen := interp_grid_length hp hs
  unfold interpolate_series at hlen ⊢
  rw [if_neg hp] at hlen ⊢
  dsimp only at hlen ⊢
  have hpos : 0 < (arange (pyInt (sortedPoints p).headI.1)
      (pyInt ((sortedPoints p).getLastD (0, 0)).1 + 1) s).length := by
    rw [hlen]; exact Nat.succ_pos _
  rw [headI_eq_getElem _ (List.length_pos.1 hpos)]
  simp only [List.get_eq_getElem]
  unfold arange
  rw [List.getElem_map, List.getElem_range]
  simp

lemma compute_ok_some {b t : List (ℚ × ℚ)} {m L : ℕ}
    (h : compute_lag_hours b t m = .ok (some L)) :
    lagLoop (refVals b t) (tgtVals b t) (m + 1) 0 0 (-999, 1) = .ok L := by
  unfold compute_lag_hours at h
  split at h
  · simp at h
  · split at h
    · simp at h
    · split at h
      · simp at h
      · split at h
        · simp at h
        · cases hr : lagLoop (refVals b t) (tgtVals b t) (m + 1) 0 0 (-999, 1) with
          | error e => rw [hr] at h; simp [Except.map] at h
          | ok a =>
            rw [hr] at h
            simp only [Except.map, Except.ok.injEq, Option.some.injEq] at h
            rw [h]

/-! Interpolation stays within the observed value range. -/

lemma interpGo_bounds (lo hi x : ℚ) (t0 v0 : ℚ) (rest : List (ℚ × ℚ))
    (ht0 : t0 ≤ x) (h1 : lo ≤ v0) (h2 : v0 ≤ hi)
    (hrest : ∀ p ∈ rest, lo ≤ p.2 ∧ p.2 ≤ hi) :
    lo ≤ interpGo x t0 v0 rest ∧ interpGo x t0 v0 rest ≤ hi := by
  induction rest generalizing t0 v0 with
  | nil => exact ⟨h1, h2⟩
  | cons hd tl ih =>
    obtain ⟨t1, v1⟩ := hd
    have hv1 := hrest (t1, v1) (List.mem_cons_self _ _)
    simp only [interpGo]
    by_cases hx : x < t1
    · rw [if_pos hx]
      have hd0 : 0 < t1 - t0 := by linarith
      constructor
      · rw [← sub_nonneg]
        have hE : v0 + (v1 - v0) * (x - t0) / (t1 - t0) - lo
            = ((v0 - lo) * (t1 - x) + (v1 - lo) * (x - t0)) / (t1 - t0) := by
          field_simp
          ring
        rw [hE]
        apply div_nonneg _ hd0.le
        have hv1lo := hv1.1
        nlinarith
      · rw [← sub_nonneg]
        have hE : hi - (v0 + (v1 - v0) * (x - t0) / (t1 - t0))
            = ((hi - v0) * (t1 - x) + (hi - v1) * (x - t0)) / (t1 - t0) := by
          field_simp
          ring
        rw [hE]
        apply div_nonneg _ hd0.le
        have hv1hi := hv1.2
        nlinarith
    · rw [if_neg hx]
      exact ih t1 v1 (not_lt.1 hx) hv1.1 hv1.2
        (fun p hp => hrest p (List.mem_cons_of_mem _ hp))

lemma npInterp_bounds (lo hi x : ℚ) (pts : List (ℚ × ℚ)) (hne : pts ≠ [])
    (hb : ∀ p ∈ pts, lo ≤ p.2 ∧ p.2 ≤ hi) :
    lo ≤ npInterp x pts ∧ npInterp x pts ≤ hi := by
  cases pts with
  | nil => exact absurd rfl hne
  | cons hd tl =>
    obtain ⟨t0, v0⟩ := hd
    have hv0 := hb (t0, v0) (List.mem_cons_self _ _)
    simp only [npInterp]
    by_cases hx : x < t0
    · rw [if_pos hx]; exact hv0
    · rw [if_neg hx]
      exact interpGo_bounds lo hi x t0 v0 tl (not_lt.1 hx) hv0.1 hv0.2
        (fun p hp => hb p (List.mem_cons_of_mem _ hp))

instance : DecidableEq (Except Unit (Option ℕ)) := fun a b =>
  match a, b with
  | .ok x, .ok y =>
      match decEq x y with
      | isTrue h => isTrue (h ▸ rfl)
      | isFalse h => isFalse (fun hc => h (Except.ok.inj hc))
  | .error x, .error y => isTrue (by cases x; cases y; rfl)
  | .ok _, .error _ => isFalse (fun hc => Except.noConfusion hc)
  | .error _, .ok _ => isFalse (fun hc => Except.noConfusion hc)

/-! Example inputs reused by witnesses and counterexamples below. -/

/-- A two-sample ramp covering 9 hours (only 2 distinct samples, 10 grid
points after interpolation). -/
def rampPair : List (ℚ × ℚ) := [(0, 0), (32400, 9)]

/-! Claim theorems. -/

/-- C7: for every non-empty series `s` and every `max_lag`, calling the
estimator with an empty reference series and `s`, or with `s` and an empty
target series, returns the "no estimate" sentinel `None`, not an error. -/
theorem C7_empty_input (s : List (ℚ × ℚ)) (m : ℕ) (h : s ≠ []) :
    compute_lag_hours [] s m = .ok none ∧ compute_lag_hours s [] m = .ok none := by
  constructor
  · unfold compute_lag_hours
    rw [if_pos (Or.inl rfl)]
  · unfold compute_lag_hours
    rw [if_pos (Or.inr rfl)]

/-- Witness for C7 at the concrete series `[(0, 0)]`. -/
theorem C7_empty_input_witness :
    compute_lag_hours [] [((0 : ℚ), (0 : ℚ))] 72 = .ok none ∧
      compute_lag_hours [((0 : ℚ), (0 : ℚ))] [] 72 = .ok none :=
  C7_empty_input [((0 : ℚ), (0 : ℚ))] 72 (by simp)

/-- C9: whenever the estimator returns a numeric lag `L`, it satisfies
`0 ≤ L ≤ max_lag` (the search range is never left). -/
theorem C9_bounded_search (b t : List (ℚ × ℚ)) (m L : ℕ)
    (h : compute_lag_hours b t m = .ok (some L)) : 0 ≤ L ∧ L ≤ m := by
  refine ⟨Nat.zero_le L, ?_⟩
  have hloop := compute_ok_some h
  rcases lagLoop_spec0 _ _ _ _ hloop with ⟨hL, _⟩ | ⟨hev, _⟩
  · omega
  · rcases hev with ⟨h1, _⟩
    exact h1

/-- C8 (amended): the 6-hour minimum-overlap check is evaluated on the
truncated interpolation-grid window: whenever
`windowEnd - windowStart < 6 * 3600` the estimator returns "no estimate"
(this includes disjoint windows and a 5-hour overlap; with whole-second,
untruncated timestamps the grid window agrees with the raw overlap). -/
theorem C8_amended_grid_overlap (b t : List (ℚ × ℚ)) (m : ℕ)
    (h : windowEnd b t - windowStart b t < 6 * 3600) :
    compute_lag_hours b t m = .ok none := by
  unfold compute_lag_hours
  by_cases h1 : b = [] ∨ t = []
  · rw [if_pos h1]
  · rw [if_neg h1]
    by_cases h2 : (valsOf b).length < 10 ∨ (valsOf t).length < 10
    · rw [if_pos h2]
    · rw [if_neg h2, if_pos h]

/-- Witness for C8: two series overlapping exactly 5 hours give "no
estimate". -/
theorem C8_amended_grid_overlap_witness :
    windowEnd [((0 : ℚ), (0 : ℚ)), (36000, 1)] [((18000 : ℚ), (0 : ℚ)), (90000, 1)] -
        windowStart [((0 : ℚ), (0 : ℚ)), (36000, 1)] [((18000 : ℚ), (0 : ℚ)), (90000, 1)] <
      6 * 3600 ∧
    compute_lag_hours [((0 : ℚ), (0 : ℚ)), (36000, 1)] [((18000 : ℚ), (0 : ℚ)), (90000, 1)] 72 =
      .ok none :=
  ⟨by decide, C8_amended_grid_overlap _ _ 72 (by decide)⟩

set_option maxHeartbeats 1000000 in
set_option maxRecDepth 100000 in
lemma grid_ramp : gridOf rampPair =
    [0, 3600, 7200, 10800, 14400, 18000, 21600, 25200, 28800, 32400] := by
  have hr : List.range (Int.toNat 36000 / 3600) = [0,1,2,3,4,5,6,7,8,9] := by decide
  rw [gridOf, interpolate_series, if_neg (show ¬ (rampPair = []) from by decide)]
  norm_num [sortedPoints, List.insertionSort, List.orderedInsert, pyInt, arange, hr, rampPair]

set_option maxHeartbeats 1000000 in
set_option maxRecDepth 100000 in
lemma vals_ramp : valsOf rampPair = [0, 1, 2, 3, 4, 5, 6, 7, 8, 9] := by
  have hr : List.range (Int.toNat 36000 / 3600) = [0,1,2,3,4,5,6,7,8,9] := by decide
  rw [valsOf, interpolate_series, if_neg (show ¬ (rampPair = []) from by decide)]
  norm_num [sortedPoints, List.insertionSort, List.orderedInsert, pyInt, arange,
    npInterp, interpGo, hr, rampPair]

lemma ws_ramp : windowStart rampPair rampPair = 0 := by
  norm_num [windowStart, grid_ramp]

lemma we_ramp : windowEnd rampPair rampPair = 32400 := by
  norm_num [windowEnd, grid_ramp]

set_option maxHeartbeats 1000000 in
set_option maxRecDepth 100000 in
lemma ref_ramp : refVals rampPair rampPair = [0, 1, 2, 3, 4, 5, 6, 7, 8, 9] := by
  norm_num [refVals, maskedVals, grid_ramp, vals_ramp, ws_ramp, we_ramp]

set_option maxHeartbeats 1000000 in
set_option maxRecDepth 100000 in
lemma tgt_ramp : tgtVals rampPair rampPair = [0, 1, 2, 3, 4, 5, 6, 7, 8, 9] := by
  norm_num [tgtVals, maskedVals, grid_ramp, vals_ramp, ws_ramp, we_ramp]

set_option maxHeartbeats 4000000 in
set_option maxRecDepth 100000 in
lemma loop_ramp :
    lagLoop [0, 1, 2, 3, 4, 5, 6, 7, 8, 9] [0, 1, 2, 3, 4, 5, 6, 7, 8, 9] 73 0 0 (-999, 1) =
      .ok 0 := by
  norm_num [lagLoop, sliceBase, sliceShift, corrS, ssd, sMean, sxyOf, gtSurd,
    show (73:ℕ) = 72+1 from rfl, show (72:ℕ) = 71+1 from rfl,
    show (71:ℕ) = 70+1 from rfl, show (70:ℕ) = 69+1 from rfl,
    show (69:ℕ) = 68+1 from rfl, show (68:ℕ) = 67+1 from rfl]

set_option maxHeartbeats 1000000 in
set_option maxRecDepth 100000 in
lemma compute_ramp : compute_lag_hours rampPair rampPair 72 = .ok (some 0) := by
  rw [compute_lag_hours,
    if_neg (show ¬ (rampPair = [] ∨ rampPair = []) from by simp [rampPair])]
  norm_num [vals_ramp, ws_ramp, we_ramp, ref_ramp, tgt_ramp, loop_ramp, ssd, sMean,
    windowStart, windowEnd, grid_ramp, Except.map]

/-- Witness for C9: the ramp input returns lag 0, which lies in `[0, 72]`. -/
theorem C9_bounded_search_witness : (0 : ℕ) ≤ 0 ∧ (0 : ℕ) ≤ 72 :=
  C9_bounded_search rampPair rampPair 72 0 compute_ramp

/-! Further example inputs (2- and 3-sample series; values are ramps or a
single step so the interpolated arrays are easy to state exactly). -/

/-- A two-sample ramp covering 10 hours (11 grid points). -/
def rampLong : List (ℚ × ℚ) := [(0, 0), (36000, 10)]

/-- A two-sample ramp anchored at a half-hour offset, spanning 9 hours. -/
def c1tgt : List (ℚ × ℚ) := [(1800, 0), (34200, 9)]

/-- A two-sample ramp anchored at a half-hour offset, spanning 10 hours. -/
def c2tgt : List (ℚ × ℚ) := [(1800, 0), (37800, 10)]

/-- The `rampPair` ramp shifted forward by one grid step. -/
def c5tgt : List (ℚ × ℚ) := [(3600, 0), (36000, 9)]

/-- A three-sample series that interpolates to nine zeros followed by a
single one (constant except for the last grid point). -/
def c6ref : List (ℚ × ℚ) := [(1800, 0), (30600, 0), (34200, 1)]

/-- A two-sample ramp with fractional (non-whole-second) timestamps
14400.5 and 50000.5. -/
def c8tgt : List (ℚ × ℚ) := [(28801 / 2, 0), (100001 / 2, 9)]

set_option maxHeartbeats 1000000 in
set_option maxRecDepth 100000 in
lemma grid_rampLong : gridOf rampLong =
    [0, 3600, 7200, 10800, 14400, 18000, 21600, 25200, 28800, 32400, 36000] := by
  have hr : List.range (Int.toNat 39600 / 3600) = [0,1,2,3,4,5,6,7,8,9,10] := by decide
  rw [gridOf, interpolate_series, if_neg (show ¬ (rampLong = []) from by decide)]
  norm_num [sortedPoints, List.insertionSort, List.orderedInsert, pyInt, arange, hr, rampLong]

set_option maxHeartbeats 1000000 in
set_option maxRecDepth 100000 in
lemma vals_rampLong : valsOf rampLong = [0, 1, 2, 3, 4, 5, 6, 7, 8, 9, 10] := by
  have hr : List.range (Int.toNat 39600 / 3600) = [0,1,2,3,4,5,6,7,8,9,10] := by decide
  rw [valsOf, interpolate_series, if_neg (show ¬ (rampLong = []) from by decide)]
  norm_num [sortedPoints, List.insertionSort, List.orderedInsert, pyInt, arange,
    npInterp, interpGo, hr, rampLong]

set_option maxHeartbeats 1000000 in
set_option maxRecDepth 100000 in
lemma grid_c1tgt : gridOf c1tgt =
    [1800, 5400, 9000, 12600, 16200, 19800, 23400, 27000, 30600, 34200] := by
  have hr : List.range (Int.toNat 36000 / 3600) = [0,1,2,3,4,5,6,7,8,9] := by decide
  rw [gridOf, interpolate_series, if_neg (show ¬ (c1tgt = []) from by decide)]
  norm_num [sortedPoints, List.insertionSort, List.orderedInsert, pyInt, arange, hr, c1tgt]

set_option maxHeartbeats 1000000 in
set_option maxRecDepth 100000 in
lemma vals_c1tgt : valsOf c1tgt = [0, 1, 2, 3, 4, 5, 6, 7, 8, 9] := by
  have hr : List.range (Int.toNat 36000 / 3600) = [0,1,2,3,4,5,6,7,8,9] := by decide
  rw [valsOf, interpolate_series, if_neg (show ¬ (c1tgt = []) from by decide)]
  norm_num [sortedPoints, List.insertionSort, List.orderedInsert, pyInt, arange,
    npInterp, interpGo, hr, c1tgt]

lemma ws_c1 : windowStart rampLong c1tgt = 1800 := by
  norm_num [windowStart, grid_rampLong, grid_c1tgt]

lemma we_c1 : windowEnd rampLong c1tgt = 34200 := by
  norm_num [windowEnd, grid_rampLong, grid_c1tgt]

set_option maxHeartbeats 1000000 in
set_option maxRecDepth 100000 in
lemma ref_c1 : refVals rampLong c1tgt = [1, 2, 3, 4, 5, 6, 7, 8, 9] := by
  norm_num [refVals, maskedVals, grid_rampLong, vals_rampLong, ws_c1, we_c1]

set_option maxHeartbeats 1000000 in
set_option maxRecDepth 100000 in
lemma tgt_c1 : tgtVals rampLong c1tgt = [0, 1, 2, 3, 4, 5, 6, 7, 8, 9] := by
  norm_num [tgtVals, maskedVals, grid_c1tgt, vals_c1tgt, ws_c1, we_c1]

set_option maxHeartbeats 1000000 in
set_option maxRecDepth 100000 in
lemma loop_c1 :
    lagLoop [1, 2, 3, 4, 5, 6, 7, 8, 9] [0, 1, 2, 3, 4, 5, 6, 7, 8, 9] 73 0 0 (-999, 1) =
      .error () := by
  rw [show (73:ℕ) = 72+1 from rfl, lagLoop]
  norm_num [sliceBase, sliceShift]

set_option maxHeartbeats 1000000 in
set_option maxRecDepth 100000 in
lemma compute_c1 : compute_lag_hours rampLong c1tgt 72 = .error () := by
  rw [compute_lag_hours,
    if_neg (show ¬ (rampLong = [] ∨ c1tgt = []) from by simp [rampLong, c1tgt])]
  norm_num [vals_rampLong, vals_c1tgt, ws_c1, we_c1, windowStart, windowEnd,
    grid_rampLong, grid_c1tgt, ref_c1, tgt_c1, loop_c1, ssd, sMean, Except.map]

set_option maxHeartbeats 1000000 in
set_option maxRecDepth 100000 in
lemma grid_c2tgt : gridOf c2tgt =
    [1800, 5400, 9000, 12600, 16200, 19800, 23400, 27000, 30600, 34200, 37800] := by
  have hr : List.range (Int.toNat 39600 / 3600) = [0,1,2,3,4,5,6,7,8,9,10] := by decide
  rw [gridOf, interpolate_series, if_neg (show ¬ (c2tgt = []) from by decide)]
  norm_num [sortedPoints, List.insertionSort, List.orderedInsert, pyInt, arange, hr, c2tgt]

set_option maxHeartbeats 1000000 in
set_option maxRecDepth 100000 in
lemma vals_c2tgt : valsOf c2tgt = [0, 1, 2, 3, 4, 5, 6, 7, 8, 9, 10] := by
  have hr : List.range (Int.toNat 39600 / 3600) = [0,1,2,3,4,5,6,7,8,9,10] := by decide
  rw [valsOf, interpolate_series, if_neg (show ¬ (c2tgt = []) from by decide)]
  norm_num [sortedPoints, List.insertionSort, List.orderedInsert, pyInt, arange,
    npInterp, interpGo, hr, c2tgt]

lemma ws_c2 : windowStart rampLong c2tgt = 1800 := by
  norm_num [windowStart, grid_rampLong, grid_c2tgt]

lemma we_c2 : windowEnd rampLong c2tgt = 36000 := by
  norm_num [windowEnd, grid_rampLong, grid_c2tgt]

set_option maxHeartbeats 1000000 in
set_option maxRecDepth 100000 in
lemma ref_c2 : refVals rampLong c2tgt = [1, 2, 3, 4, 5, 6, 7, 8, 9, 10] := by
  norm_num [refVals, maskedVals, grid_rampLong, vals_rampLong, ws_c2, we_c2]

set_option maxHeartbeats 1000000 in
set_option maxRecDepth 100000 in
lemma tgt_c2 : tgtVals rampLong c2tgt = [0, 1, 2, 3, 4, 5, 6, 7, 8, 9] := by
  norm_num [tgtVals, maskedVals, grid_c2tgt, vals_c2tgt, ws_c2, we_c2]

set_option maxHeartbeats 4000000 in
set_option maxRecDepth 100000 in
lemma loop_c2 :
    lagLoop [1, 2, 3, 4, 5, 6, 7, 8, 9, 10] [0, 1, 2, 3, 4, 5, 6, 7, 8, 9] 73 0 0 (-999, 1) =
      .ok 0 := by
  norm_num [lagLoop, sliceBase, sliceShift, corrS, ssd, sMean, sxyOf, gtSurd,
    show (73:ℕ) = 72+1 from rfl, show (72:ℕ) = 71+1 from rfl,
    show (71:ℕ) = 70+1 from rfl, show (70:ℕ) = 69+1 from rfl,
    show (69:ℕ) = 68+1 from rfl, show (68:ℕ) = 67+1 from rfl]

set_option maxHeartbeats 1000000 in
set_option maxRecDepth 100000 in
lemma compute_c2 : compute_lag_hours rampLong c2tgt 72 = .ok (some 0) := by
  rw [compute_lag_hours,
    if_neg (show ¬ (rampLong = [] ∨ c2tgt = []) from by simp [rampLong, c2tgt])]
  norm_num [vals_rampLong, vals_c2tgt, ws_c2, we_c2, windowStart, windowEnd,
    grid_rampLong, grid_c2tgt, ref_c2, tgt_c2, loop_c2, ssd, sMean, Except.map]

set_option maxHeartbeats 1000000 in
set_option maxRecDepth 100000 in
lemma grid_c5tgt : gridOf c5tgt =
    [3600, 7200, 10800, 14400, 18000, 21600, 25200, 28800, 32400, 36000] := by
  have hr : List.range (Int.toNat 36000 / 3600) = [0,1,2,3,4,5,6,7,8,9] := by decide
  rw [gridOf, interpolate_series, if_neg (show ¬ (c5tgt = []) from by decide)]
  norm_num [sortedPoints, List.insertionSort, List.orderedInsert, pyInt, arange, hr, c5tgt]

set_option maxHeartbeats 1000000 in
set_option maxRecDepth 100000 in
lemma vals_c5tgt : valsOf c5tgt = [0, 1, 2, 3, 4, 5, 6, 7, 8, 9] := by
  have hr : List.range (Int.toNat 36000 / 3600) = [0,1,2,3,4,5,6,7,8,9] := by decide
  rw [valsOf, interpolate_series, if_neg (show ¬ (c5tgt = []) from by decide)]
  norm_num [sortedPoints, List.insertionSort, List.orderedInsert, pyInt, arange,
    npInterp, interpGo, hr, c5tgt]

lemma ws_c5 : windowStart rampPair c5tgt = 3600 := by
  norm_num [windowStart, grid_ramp, grid_c5tgt]

lemma we_c5 : windowEnd rampPair c5tgt = 32400 := by
  norm_num [windowEnd, grid_ramp, grid_c5tgt]

set_option maxHeartbeats 1000000 in
set_option maxRecDepth 100000 in
lemma ref_c5 : refVals rampPair c5tgt = [1, 2, 3, 4, 5, 6, 7, 8, 9] := by
  norm_num [refVals, maskedVals, grid_ramp, vals_ramp, ws_c5, we_c5]

set_option maxHeartbeats 1000000 in
set_option maxRecDepth 100000 in
lemma tgt_c5 : tgtVals rampPair c5tgt = [0, 1, 2, 3, 4, 5, 6, 7, 8] := by
  norm_num [tgtVals, maskedVals, grid_c5tgt, vals_c5tgt, ws_c5, we_c5]

set_option maxHeartbeats 4000000 in
set_option maxRecDepth 100000 in
lemma loop_c5 :
    lagLoop [1, 2, 3, 4, 5, 6, 7, 8, 9] [0, 1, 2, 3, 4, 5, 6, 7, 8] 73 0 0 (-999, 1) =
      .ok 0 := by
  norm_num [lagLoop, sliceBase, sliceShift, corrS, ssd, sMean, sxyOf, gtSurd,
    show (73:ℕ) = 72+1 from rfl, show (72:ℕ) = 71+1 from rfl,
    show (71:ℕ) = 70+1 from rfl, show (70:ℕ) = 69+1 from rfl,
    show (69:ℕ) = 68+1 from rfl]

set_option maxHeartbeats 1000000 in
set_option maxRecDepth 100000 in
lemma compute_c5 : compute_lag_hours rampPair c5tgt 72 = .ok (some 0) := by
  rw [compute_lag_hours,
    if_neg (show ¬ (rampPair = [] ∨ c5tgt = []) from by simp [rampPair, c5tgt])]
  norm_num [vals_ramp, vals_c5tgt, ws_c5, we_c5, windowStart, windowEnd,
    grid_ramp, grid_c5tgt, ref_c5, tgt_c5, loop_c5, ssd, sMean, Except.map]

set_option maxHeartbeats 1000000 in
set_option maxRecDepth 100000 in
lemma grid_c6ref : gridOf c6ref =
    [1800, 5400, 9000, 12600, 16200, 19800, 23400, 27000, 30600, 34200] := by
  have hr : List.range (Int.toNat 36000 / 3600) = [0,1,2,3,4,5,6,7,8,9] := by decide
  rw [gridOf, interpolate_series, if_neg (show ¬ (c6ref = []) from by decide)]
  norm_num [sortedPoints, List.insertionSort, List.orderedInsert, pyInt, arange, hr, c6ref]

set_option maxHeartbeats 1000000 in
set_option maxRecDepth 100000 in
lemma vals_c6ref : valsOf c6ref = [0, 0, 0, 0, 0, 0, 0, 0, 0, 1] := by
  have hr : List.range (Int.toNat 36000 / 3600) = [0,1,2,3,4,5,6,7,8,9] := by decide
  rw [valsOf, interpolate_series, if_neg (show ¬ (c6ref = []) from by decide)]
  norm_num [sortedPoints, List.insertionSort, List.orderedInsert, pyInt, arange,
    npInterp, interpGo, hr, c6ref]

lemma ws_c6 : windowStart c6ref rampLong = 1800 := by
  norm_num [windowStart, grid_c6ref, grid_rampLong]

lemma we_c6 : windowEnd c6ref rampLong = 34200 := by
  norm_num [windowEnd, grid_c6ref, grid_rampLong]

set_option maxHeartbeats 1000000 in
set_option maxRecDepth 100000 in
lemma ref_c6 : refVals c6ref rampLong = [0, 0, 0, 0, 0, 0, 0, 0, 0, 1] := by
  norm_num [refVals, maskedVals, grid_c6ref, vals_c6ref, ws_c6, we_c6]

set_option maxHeartbeats 1000000 in
set_option maxRecDepth 100000 in
lemma tgt_c6 : tgtVals c6ref rampLong = [1, 2, 3, 4, 5, 6, 7, 8, 9] := by
  norm_num [tgtVals, maskedVals, grid_rampLong, vals_rampLong, ws_c6, we_c6]

set_option maxHeartbeats 4000000 in
set_option maxRecDepth 100000 in
lemma loop_c6 :
    lagLoop [0, 0, 0, 0, 0, 0, 0, 0, 0, 1] [1, 2, 3, 4, 5, 6, 7, 8, 9] 73 0 0 (-999, 1) =
      .ok 0 := by
  norm_num [lagLoop, sliceBase, sliceShift, corrS, ssd, sMean, sxyOf, gtSurd,
    show (73:ℕ) = 72+1 from rfl, show (72:ℕ) = 71+1 from rfl,
    show (71:ℕ) = 70+1 from rfl, show (70:ℕ) = 69+1 from rfl,
    show (69:ℕ) = 68+1 from rfl]

set_option maxHeartbeats 1000000 in
set_option maxRecDepth 100000 in
lemma compute_c6 : compute_lag_hours c6ref rampLong 72 = .ok (some 0) := by
  rw [compute_lag_hours,
    if_neg (show ¬ (c6ref = [] ∨ rampLong = []) from by simp [c6ref, rampLong])]
  norm_num [vals_c6ref, vals_rampLong, ws_c6, we_c6, windowStart, windowEnd,
    grid_c6ref, grid_rampLong, ref_c6, tgt_c6, loop_c6, ssd, sMean, Except.map]

set_option maxHeartbeats 1000000 in
set_option maxRecDepth 100000 in
lemma corr_c6_none (l : ℕ) (hl : l < 4) :
    corrS (sliceBase (refVals c6ref rampLong) (tgtVals c6ref rampLong) l)
      (sliceShift (tgtVals c6ref rampLong) l) = none := by
  interval_cases l <;>
    norm_num [ref_c6, tgt_c6, sliceBase, sliceShift, corrS, ssd, sMean]

set_option maxHeartbeats 1000000 in
set_option maxRecDepth 100000 in
lemma grid_c8tgt : gridOf c8tgt =
    [14400, 18000, 21600, 25200, 28800, 32400, 36000, 39600, 43200, 46800] := by
  have hr : List.range (Int.toNat 39200 / 3600) = [0,1,2,3,4,5,6,7,8,9] := by decide
  rw [gridOf, interpolate_series, if_neg (show ¬ (c8tgt = []) from by decide)]
  norm_num [sortedPoints, List.insertionSort, List.orderedInsert, pyInt, arange, hr, c8tgt]

set_option maxHeartbeats 2000000 in
set_option maxRecDepth 100000 in
lemma vals_c8tgt : valsOf c8tgt =
    [0, 64791/71200, 129591/71200, 194391/71200, 259191/71200, 323991/71200,
      388791/71200, 453591/71200, 518391/71200, 583191/71200] := by
  have hr : List.range (Int.toNat 39200 / 3600) = [0,1,2,3,4,5,6,7,8,9] := by decide
  rw [valsOf, interpolate_series, if_neg (show ¬ (c8tgt = []) from by decide)]
  norm_num [sortedPoints, List.insertionSort, List.orderedInsert, pyInt, arange,
    npInterp, interpGo, hr, c8tgt]

lemma ws_c8 : windowStart rampLong c8tgt = 14400 := by
  norm_num [windowStart, grid_rampLong, grid_c8tgt]

lemma we_c8 : windowEnd rampLong c8tgt = 36000 := by
  norm_num [windowEnd, grid_rampLong, grid_c8tgt]

set_option maxHeartbeats 1000000 in
set_option maxRecDepth 100000 in
lemma ref_c8 : refVals rampLong c8tgt = [4, 5, 6, 7, 8, 9, 10] := by
  norm_num [refVals, maskedVals, grid_rampLong, vals_rampLong, ws_c8, we_c8]

set_option maxHeartbeats 2000000 in
set_option maxRecDepth 100000 in
lemma tgt_c8 : tgtVals rampLong c8tgt =
    [0, 64791/71200, 129591/71200, 194391/71200, 259191/71200, 323991/71200,
      388791/71200] := by
  norm_num [tgtVals, maskedVals, grid_c8tgt, vals_c8tgt, ws_c8, we_c8]

set_option maxHeartbeats 8000000 in
set_option maxRecDepth 100000 in
lemma loop_c8 :
    lagLoop [4, 5, 6, 7, 8, 9, 10]
      [0, 64791/71200, 129591/71200, 194391/71200, 259191/71200, 323991/71200,
        388791/71200] 73 0 0 (-999, 1) = .ok 1 := by
  norm_num [lagLoop, sliceBase, sliceShift, corrS, ssd, sMean, sxyOf, gtSurd,
    show (73:ℕ) = 72+1 from rfl, show (72:ℕ) = 71+1 from rfl,
    show (71:ℕ) = 70+1 from rfl]

set_option maxHeartbeats 2000000 in
set_option maxRecDepth 100000 in
lemma compute_c8 : compute_lag_hours rampLong c8tgt 72 = .ok (some 1) := by
  rw [compute_lag_hours,
    if_neg (show ¬ (rampLong = [] ∨ c8tgt = []) from by simp [rampLong, c8tgt])]
  norm_num [vals_rampLong, vals_c8tgt, ws_c8, we_c8, windowStart, windowEnd,
    grid_rampLong, grid_c8tgt, ref_c8, tgt_c8, loop_c8, ssd, sMean, Except.map]

/-- C1: the spec claims `compute_lag_hours` never propagates an exception.
The code violates this: with the reference series anchored on the hour and
the target series anchored at a half-hour offset, the two masked grids have
lengths 9 and 10, and `np.corrcoef` raises `ValueError` on the mismatched
slices at lag 0 (modelled as `Except.error`). -/
theorem C1_exception_on_misaligned_grids :
    compute_lag_hours rampLong c1tgt 72 = .error () := compute_c1

/-- C2 counterexample: a pair of non-degenerate series (the estimator even
returns a numeric lag for them) whose masked grids are *not* a common grid:
the retained reference timestamps and target timestamps differ at every
index (offset by 1800 s), so equal indices do not correspond to equal
absolute timestamps. -/
theorem C2_counterexample :
    compute_lag_hours rampLong c2tgt 72 = .ok (some 0) ∧
      maskedGrid (gridOf rampLong) (windowStart rampLong c2tgt) (windowEnd rampLong c2tgt) ≠
        maskedGrid (gridOf c2tgt) (windowStart rampLong c2tgt) (windowEnd rampLong c2tgt) :=
  ⟨compute_c2, by decide⟩

/-- C3 counterexample: a series with only 2 distinct timestamped samples
(far fewer than 10) nevertheless produces a numeric lag estimate, because
the sparsity check counts interpolated grid points, not distinct samples. -/
theorem C3_counterexample :
    rampPair.length = 2 ∧ compute_lag_hours rampPair rampPair 72 = .ok (some 0) :=
  ⟨rfl, compute_ramp⟩

/-- C4 counterexample: the series handed to the interpolation step is not
deduplicated: two samples sharing timestamp 0 both survive the sort. -/
theorem C4_counterexample :
    (sortedPoints [((0 : ℚ), (1 : ℚ)), (0, 2)]).map Prod.fst = [0, 0] := by decide

/-- C4 (amended): before interpolation the series is sorted ascending
(non-decreasing) by timestamp and is a permutation of the input — samples
with identical timestamps are all retained (no deduplication). -/
theorem C4_amended_sorted_not_dedup (points : List (ℚ × ℚ)) :
    List.Pairwise (fun p q : ℚ × ℚ => p.1 ≤ q.1) (sortedPoints points) ∧
      (sortedPoints points).Perm points :=
  ⟨sortedPoints_sorted points, sortedPoints_perm points⟩

/-- C5 counterexample: `c5tgt` is exactly `rampPair` shifted forward by one
grid step (k = 1), yet the estimator returns lag 0, not 1: a pure ramp has
Pearson correlation exactly 1 at every candidate lag and the tie-break
keeps the first. -/
theorem C5_counterexample :
    c5tgt = rampPair.map (fun p => (p.1 + 3600, p.2)) ∧
      compute_lag_hours rampPair c5tgt 72 = .ok (some 0) :=
  ⟨by norm_num [c5tgt, rampPair], compute_c5⟩

/-- C6 counterexample: the estimator returns the numeric lag 0 although
*no* evaluated lag has a defined Pearson correlation: every base slice is
constant, so every `np.corrcoef` call yields NaN and the initial
`best_lag = 0` is returned unexamined (lags 0..3 are the evaluated ones;
lag 4 hits the fewer-than-6-samples break). -/
theorem C6_counterexample :
    compute_lag_hours c6ref rampLong 72 = .ok (some 0) ∧
      (∀ l, l < 4 →
        corrS (sliceBase (refVals c6ref rampLong) (tgtVals c6ref rampLong) l)
          (sliceShift (tgtVals c6ref rampLong) l) = none) :=
  ⟨compute_c6, corr_c6_none⟩

/-- C8 counterexample: the raw time ranges of these two series overlap by
only 21599.5 seconds (strictly less than 6 hours), yet the estimator
returns a numeric lag: the overlap check runs on the truncated grid
endpoints, which here span exactly 21600 seconds. -/
theorem C8_counterexample :
    compute_lag_hours rampLong c8tgt 72 = .ok (some 1) ∧
      min ((100001 : ℚ) / 2) 36000 - max ((28801 : ℚ) / 2) 0 < 6 * 3600 :=
  ⟨compute_c8, by norm_num⟩

/-- C6 (amended): whenever the estimator returns a numeric lag `L`, either
some evaluated lag has a defined (non-NaN) correlation — and then `L` is
an evaluated lag whose exact Pearson correlation `c.1 / sqrt c.2` is
maximal among all defined ones, with ties broken towards the smallest lag
(strictly greater than every defined correlation at smaller lags) — or no
evaluated lag has a defined correlation and the initial `L = 0` is
returned. -/
theorem C6_amended_first_argmax (b t : List (ℚ × ℚ)) (m L : ℕ)
    (h : compute_lag_hours b t m = .ok (some L)) :
    ((L = 0 ∧ ∀ l, EvAt (tgtVals b t) m l →
        corrS (sliceBase (refVals b t) (tgtVals b t) l) (sliceShift (tgtVals b t) l) = none) ∨
      (EvAt (tgtVals b t) m L ∧
        ∃ c, corrS (sliceBase (refVals b t) (tgtVals b t) L) (sliceShift (tgtVals b t) L) =
            some c ∧
          (∀ l, EvAt (tgtVals b t) m l → ∀ d,
            corrS (sliceBase (refVals b t) (tgtVals b t) l) (sliceShift (tgtVals b t) l) =
              some d →
            (d.1 : ℝ) / Real.sqrt (d.2 : ℝ) ≤ (c.1 : ℝ) / Real.sqrt (c.2 : ℝ) ∧
            (l < L → (d.1 : ℝ) / Real.sqrt (d.2 : ℝ) < (c.1 : ℝ) / Real.sqrt (c.2 : ℝ))))) :=
  lagLoop_spec0 _ _ _ _ (compute_ok_some h)

/-- Witness for C6 at the concrete ramp input (returns lag 0). -/
theorem C6_amended_first_argmax_witness :
    ((0 = 0 ∧ ∀ l, EvAt (tgtVals rampPair rampPair) 72 l →
        corrS (sliceBase (refVals rampPair rampPair) (tgtVals rampPair rampPair) l)
          (sliceShift (tgtVals rampPair rampPair) l) = none) ∨
      (EvAt (tgtVals rampPair rampPair) 72 0 ∧
        ∃ c, corrS (sliceBase (refVals rampPair rampPair) (tgtVals rampPair rampPair) 0)
            (sliceShift (tgtVals rampPair rampPair) 0) = some c ∧
          (∀ l, EvAt (tgtVals rampPair rampPair) 72 l → ∀ d,
            corrS (sliceBase (refVals rampPair rampPair) (tgtVals rampPair rampPair) l)
              (sliceShift (tgtVals rampPair rampPair) l) = some d →
            (d.1 : ℝ) / Real.sqrt (d.2 : ℝ) ≤ (c.1 : ℝ) / Real.sqrt (c.2 : ℝ) ∧
            (l < 0 → (d.1 : ℝ) / Real.sqrt (d.2 : ℝ) < (c.1 : ℝ) / Real.sqrt (c.2 : ℝ))))) :=
  C6_amended_first_argmax rampPair rampPair 72 0 compute_ramp

/-- C3 (amended): the sparsity threshold is evaluated on the interpolated
grid, not on the count of distinct samples: whenever the truncated time
span of either input series is below 9 grid steps (so its grid has fewer
than 10 points), the estimator returns "no estimate" — regardless of how
many distinct samples the series contains. -/
theorem C3_amended_grid_sparsity (b t : List (ℚ × ℚ)) (m : ℕ)
    (h : pyInt ((sortedPoints b).getLastD (0, 0)).1 - pyInt (sortedPoints b).headI.1 < 9 * 3600 ∨
      pyInt ((sortedPoints t).getLastD (0, 0)).1 - pyInt (sortedPoints t).headI.1 < 9 * 3600) :
    compute_lag_hours b t m = .ok none := by
  by_cases hb : b = []
  · unfold compute_lag_hours
    rw [if_pos (Or.inl hb)]
  · by_cases ht : t = []
    · unfold compute_lag_hours
      rw [if_pos (Or.inr ht)]
    · have key : ∀ (p : List (ℚ × ℚ)), p ≠ [] →
          pyInt ((sortedPoints p).getLastD (0, 0)).1 - pyInt (sortedPoints p).headI.1 <
            9 * 3600 →
          (valsOf p).length < 10 := by
        intro p hp hspan
        rw [valsOf_length]
        unfold gridOf
        rw [interp_grid_length hp (by norm_num)]
        omega
      unfold compute_lag_hours
      rw [if_neg (by tauto)]
      rcases h with h | h
      · rw [if_pos (Or.inl (key b hb h))]
      · rw [if_pos (Or.inr (key t ht h))]

/-- Witness for C3 at a one-sample series (span 0 < 9 hours). -/
theorem C3_amended_grid_sparsity_witness :
    (pyInt ((sortedPoints [((0 : ℚ), (0 : ℚ))]).getLastD (0, 0)).1 -
        pyInt (sortedPoints [((0 : ℚ), (0 : ℚ))]).headI.1 < 9 * 3600) ∧
      compute_lag_hours [((0 : ℚ), (0 : ℚ))] [((0 : ℚ), (0 : ℚ))] 72 = .ok none :=
  ⟨by decide, C3_amended_grid_sparsity _ _ 72 (Or.inl (by decide))⟩

/-- C10: for a nonempty input and positive step, the interpolation grid has
`(int(t_max) - int(t_min)) / step + 1` points, starts at the truncated
first timestamp, and every interpolated value lies between any lower and
upper bound of the input sample values (linear interpolation never
extrapolates outside the observed range). -/
theorem C10_interp_grid (points : List (ℚ × ℚ)) (s : ℕ) (lo hi : ℚ)
    (hne : points ≠ []) (hs : 0 < s)
    (hb : ∀ q ∈ points, lo ≤ q.2 ∧ q.2 ≤ hi) :
    (interpolate_series points s).1.length =
        (pyInt ((sortedPoints points).getLastD (0, 0)).1 -
          pyInt (sortedPoints points).headI.1).toNat / s + 1 ∧
      (interpolate_series points s).1.headI = pyInt (sortedPoints points).headI.1 ∧
      ∀ y ∈ (interpolate_series points s).2, lo ≤ y ∧ y ≤ hi := by
  refine ⟨interp_grid_length hne hs, interp_grid_headI hne hs, ?_⟩
  intro y hy
  unfold interpolate_series at hy
  rw [if_neg hne] at hy
  dsimp only at hy
  obtain ⟨x, hx, rfl⟩ := List.mem_map.1 hy
  apply npInterp_bounds lo hi _ _ (sortedPoints_ne_nil hne)
  intro p hp
  exact hb p ((sortedPoints_perm points).mem_iff.1 hp)

/-- Witness for C10 at a one-sample series with value 5. -/
theorem C10_interp_grid_witness :
    (interpolate_series [((0 : ℚ), (5 : ℚ))] 3600).1.length =
        (pyInt ((sortedPoints [((0 : ℚ), (5 : ℚ))]).getLastD (0, 0)).1 -
          pyInt (sortedPoints [((0 : ℚ), (5 : ℚ))]).headI.1).toNat / 3600 + 1 ∧
      (interpolate_series [((0 : ℚ), (5 : ℚ))] 3600).1.headI =
        pyInt (sortedPoints [((0 : ℚ), (5 : ℚ))]).headI.1 ∧
      ∀ y ∈ (interpolate_series [((0 : ℚ), (5 : ℚ))] 3600).2, 5 ≤ y ∧ y ≤ 5 :=
  C10_interp_grid [((0 : ℚ), (5 : ℚ))] 3600 5 5 (by simp) (by norm_num) (by decide)

/-! Structure of the interpolation grid: an arithmetic progression with
step 3600 anchored at the truncated start time. -/

lemma gridOf_ne_nil {p : List (ℚ × ℚ)} (hp : p ≠ []) : gridOf p ≠ [] := by
  have h := interp_grid_length hp (s := 3600) (by norm_num)
  unfold gridOf
  intro hc
  rw [hc] at h
  simp at h

lemma AP_getLastD (a : ℤ) (K : ℕ) (hK : 0 < K) :
    (((List.range K).map (fun i : ℕ => a + (i : ℤ) * 3600)).getLastD 0) =
      a + ((K - 1 : ℕ) : ℤ) * 3600 := by
  have hne : ((List.range K).map (fun i : ℕ => a + (i : ℤ) * 3600)) ≠ [] := by
    simp only [ne_eq, List.map_eq_nil_iff, List.range_eq_nil]
    omega
  rw [getLastD_eq_getElem _ _ hne]
  simp only [List.get_eq_getElem, List.length_map, List.length_range]
  rw [List.getElem_map, List.getElem_range]

lemma gridOf_struct {p : List (ℚ × ℚ)} (hp : p ≠ []) :
    gridOf p = (List.range (gridOf p).length).map
      (fun i : ℕ => (gridOf p).headI + (i : ℤ) * 3600) := by
  unfold gridOf interpolate_series
  rw [if_neg hp]
  dsimp only
  unfold arange
  simp only [Nat.cast_ofNat]
  set a := pyInt (sortedPoints p).headI.1 with ha
  set K := ((pyInt ((sortedPoints p).getLastD (0, 0)).1 + 1 - a + (3600 : ℤ) - 1).toNat / 3600)
    with hK
  rw [List.length_map, List.length_range]
  cases hK0 : K with
  | zero => simp
  | succ K' =>
    have hne : ((List.range (K' + 1)).map (fun i : ℕ => a + (i : ℤ) * 3600)) ≠ [] := by
      simp
    rw [headI_eq_getElem _ hne]
    simp only [List.get_eq_getElem]
    rw [List.getElem_map, List.getElem_range]
    norm_num

lemma gridOf_last {p : List (ℚ × ℚ)} (hp : p ≠ []) :
    (gridOf p).getLastD 0 = (gridOf p).headI + (((gridOf p).length - 1 : ℕ) : ℤ) * 3600 := by
  have hne := gridOf_ne_nil hp
  have hlen : 0 < (gridOf p).length := List.length_pos.2 hne
  conv_lhs => rw [gridOf_struct hp]
  exact AP_getLastD _ _ hlen

lemma gridOf_mem_iff {p : List (ℚ × ℚ)} (hp : p ≠ []) (x : ℤ) :
    x ∈ gridOf p ↔ ∃ i : ℕ, i < (gridOf p).length ∧
      x = (gridOf p).headI + (i : ℤ) * 3600 := by
  conv_lhs => rw [gridOf_struct hp]
  simp only [List.mem_map, List.mem_range]
  constructor
  · rintro ⟨i, hi, rfl⟩; exact ⟨i, hi, rfl⟩
  · rintro ⟨i, hi, rfl⟩; exact ⟨i, hi, rfl⟩

lemma gridOf_sorted {p : List (ℚ × ℚ)} (hp : p ≠ []) :
    (gridOf p).Pairwise (· < ·) := by
  rw [gridOf_struct hp]
  rw [List.pairwise_iff_getElem]
  intro i j hi hj hij
  simp only [List.getElem_map, List.getElem_range] at *
  have hij' : (i : ℤ) < (j : ℤ) := by exact_mod_cast hij
  nlinarith [hij']

/-- Two strictly sorted integer lists with the same members are equal. -/
lemma sorted_mem_unique : ∀ (l₁ l₂ : List ℤ), l₁.Pairwise (· < ·) → l₂.Pairwise (· < ·) →
    (∀ x, x ∈ l₁ ↔ x ∈ l₂) → l₁ = l₂ := by
  intro l₁
  induction l₁ with
  | nil =>
    intro l₂ _ _ hm
    cases l₂ with
    | nil => rfl
    | cons b t₂ => exact absurd ((hm b).2 (List.mem_cons_self b t₂)) (List.not_mem_nil b)
  | cons a t₁ ih =>
    intro l₂ h₁ h₂ hm
    cases l₂ with
    | nil => exact absurd ((hm a).1 (List.mem_cons_self a t₁)) (List.not_mem_nil a)
    | cons b t₂ =>
      have hab : a = b := by
        have ha2 : a ∈ b :: t₂ := (hm a).1 (List.mem_cons_self a t₁)
        have hb1 : b ∈ a :: t₁ := (hm b).2 (List.mem_cons_self b t₂)
        rcases List.mem_cons.1 ha2 with h | h
        · exact h
        · rcases List.mem_cons.1 hb1 with h' | h'
          · exact h'.symm
          · have hba : b < a := (List.pairwise_cons.1 h₂).1 a h
            have hab : a < b := (List.pairwise_cons.1 h₁).1 b h'
            omega
      subst hab
      congr 1
      apply ih t₂ (List.pairwise_cons.1 h₁).2 (List.pairwise_cons.1 h₂).2
      intro x
      constructor
      · intro hx
        have hax : a < x := (List.pairwise_cons.1 h₁).1 x hx
        rcases List.mem_cons.1 ((hm x).1 (List.mem_cons_of_mem a hx)) with h | h
        · omega
        · exact h
      · intro hx
        have hax : a < x := (List.pairwise_cons.1 h₂).1 x hx
        rcases List.mem_cons.1 ((hm x).2 (List.mem_cons_of_mem a hx)) with h | h
        · omega
        · exact h

lemma maskedGrid_mem_iff (g : List ℤ) (ws we x : ℤ) :
    x ∈ maskedGrid g ws we ↔ x ∈ g ∧ ws ≤ x ∧ x ≤ we := by
  unfold maskedGrid
  rw [List.mem_filter]
  simp

lemma maskedGrid_sorted (g : List ℤ) (ws we : ℤ) (h : g.Pairwise (· < ·)) :
    (maskedGrid g ws we).Pairwise (· < ·) :=
  List.Pairwise.sublist (List.filter_sublist g) h

/-- C2 (amended): the two series are **not** resampled onto one common
grid: each is interpolated on its own uniform 3600-second grid anchored at
its own truncated start time, and both grids are then restricted to the
overlap window `[windowStart, windowEnd]`.  Every retained reference grid
time lies in the window and is congruent to the reference anchor modulo
3600; and only when the two anchors are congruent modulo 3600 do the two
restricted grids coincide (so that equal indices mean equal absolute
timestamps). -/
theorem C2_amended_independent_grids (b t : List (ℚ × ℚ)) (hb : b ≠ []) (ht : t ≠ []) :
    (∀ x ∈ maskedGrid (gridOf b) (windowStart b t) (windowEnd b t),
        windowStart b t ≤ x ∧ x ≤ windowEnd b t ∧ (x - (gridOf b).headI) % 3600 = 0) ∧
      (((gridOf b).headI - (gridOf t).headI) % 3600 = 0 →
        maskedGrid (gridOf b) (windowStart b t) (windowEnd b t) =
          maskedGrid (gridOf t) (windowStart b t) (windowEnd b t)) := by
  have hgb := gridOf_ne_nil hb
  have hgt := gridOf_ne_nil ht
  have hNb : 0 < (gridOf b).length := List.length_pos.2 hgb
  have hNt : 0 < (gridOf t).length := List.length_pos.2 hgt
  constructor
  · intro x hx
    rw [maskedGrid_mem_iff] at hx
    obtain ⟨hxg, h1, h2⟩ := hx
    refine ⟨h1, h2, ?_⟩
    obtain ⟨i, hi, rfl⟩ := (gridOf_mem_iff hb x).1 hxg
    omega
  · intro hcong
    apply sorted_mem_unique _ _ (maskedGrid_sorted _ _ _ (gridOf_sorted hb))
      (maskedGrid_sorted _ _ _ (gridOf_sorted ht))
    intro x
    rw [maskedGrid_mem_iff, maskedGrid_mem_iff]
    have hlb := gridOf_last hb
    have hlt := gridOf_last ht
    have hwsb : (gridOf b).headI ≤ windowStart b t := le_max_left _ _
    have hwst : (gridOf t).headI ≤ windowStart b t := le_max_right _ _
    have hweb : windowEnd b t ≤ (gridOf b).getLastD 0 := min_le_left _ _
    have hwet : windowEnd b t ≤ (gridOf t).getLastD 0 := min_le_right _ _
    constructor
    · rintro ⟨hxg, h1, h2⟩
      refine ⟨?_, h1, h2⟩
      obtain ⟨i, hi, rfl⟩ := (gridOf_mem_iff hb _).1 hxg
      rw [gridOf_mem_iff ht]
      refine ⟨((((gridOf b).headI + (i : ℤ) * 3600) - (gridOf t).headI) / 3600).toNat,
        by omega, by omega⟩
    · rintro ⟨hxg, h1, h2⟩
      refine ⟨?_, h1, h2⟩
      obtain ⟨i, hi, rfl⟩ := (gridOf_mem_iff ht _).1 hxg
      rw [gridOf_mem_iff hb]
      refine ⟨((((gridOf t).headI + (i : ℤ) * 3600) - (gridOf b).headI) / 3600).toNat,
        by omega, by omega⟩

/-- Witness for C2 at two aligned ramps (anchors both 0). -/
theorem C2_amended_independent_grids_witness :
    (∀ x ∈ maskedGrid (gridOf rampPair) (windowStart rampPair rampPair)
        (windowEnd rampPair rampPair),
        windowStart rampPair rampPair ≤ x ∧ x ≤ windowEnd rampPair rampPair ∧
          (x - (gridOf rampPair).headI) % 3600 = 0) ∧
      (((gridOf rampPair).headI - (gridOf rampPair).headI) % 3600 = 0 →
        maskedGrid (gridOf rampPair) (windowStart rampPair rampPair)
            (windowEnd rampPair rampPair) =
          maskedGrid (gridOf rampPair) (windowStart rampPair rampPair)
            (windowEnd rampPair rampPair)) :=
  C2_amended_independent_grids rampPair rampPair (by decide) (by decide)

/-! The self-lag pipeline: a series sampled exactly on the hourly grid
interpolates to itself. -/

lemma gridSeries_length (t0 : ℤ) (v : List ℚ) : (gridSeries t0 v).length = v.length := by
  unfold gridSeries
  rw [List.length_map, List.length_range]

lemma gridSeries_getElem (t0 : ℤ) (v : List ℚ) (i : ℕ) (hi : i < (gridSeries t0 v).length) :
    (gridSeries t0 v)[i] =
      (((t0 + 3600 * (i : ℤ) : ℤ) : ℚ), v.getD i 0) := by
  unfold gridSeries at hi ⊢
  rw [List.getElem_map, List.getElem_range]

lemma gridSeries_ne_nil (t0 : ℤ) {v : List ℚ} (hv : v ≠ []) : gridSeries t0 v ≠ [] := by
  intro hc
  have h := gridSeries_length t0 v
  rw [hc] at h
  simp only [List.length_nil] at h
  exact hv (List.length_eq_zero.1 h.symm)

lemma gridSeries_strict (t0 : ℤ) (v : List ℚ) :
    (gridSeries t0 v).Pairwise (fun p q : ℚ × ℚ => p.1 < q.1) := by
  rw [List.pairwise_iff_getElem]
  intro i j hi hj hij
  rw [gridSeries_getElem t0 v i hi, gridSeries_getElem t0 v j hj]
  dsimp only
  have h1 : (t0 + 3600 * (i : ℤ) : ℤ) < (t0 + 3600 * (j : ℤ) : ℤ) := by
    have : (i : ℤ) < (j : ℤ) := by exact_mod_cast hij
    omega
  exact_mod_cast h1

lemma sortedPoints_gridSeries (t0 : ℤ) (v : List ℚ) :
    sortedPoints (gridSeries t0 v) = gridSeries t0 v := by
  apply List.Sorted.insertionSort_eq
  unfold List.Sorted
  exact (gridSeries_strict t0 v).imp (fun h => le_of_lt h)

lemma gridSeries_headI (t0 : ℤ) {v : List ℚ} (hv : v ≠ []) :
    (gridSeries t0 v).headI = (((t0 : ℤ) : ℚ), v.getD 0 0) := by
  have h0 : 0 < (gridSeries t0 v).length := by
    rw [gridSeries_length]
    exact List.length_pos.2 hv
  rw [headI_eq_getElem _ (gridSeries_ne_nil t0 hv)]
  simp only [List.get_eq_getElem]
  rw [gridSeries_getElem t0 v 0 h0]
  norm_num

lemma gridSeries_getLastD (t0 : ℤ) {v : List ℚ} (hv : v ≠ []) :
    (gridSeries t0 v).getLastD (0, 0) =
      (((t0 + 3600 * ((v.length - 1 : ℕ) : ℤ) : ℤ) : ℚ), v.getD (v.length - 1) 0) := by
  have hne := gridSeries_ne_nil t0 hv
  have hlen := gridSeries_length t0 v
  have h0 : (gridSeries t0 v).length - 1 < (gridSeries t0 v).length := by
    have := List.length_pos.2 hne
    omega
  rw [getLastD_eq_getElem _ _ hne]
  simp only [List.get_eq_getElem]
  rw [gridSeries_getElem t0 v _ h0, hlen]

/-- Walking `interpGo` from a point strictly left of a strictly sorted list
and querying an exact node returns that node's value. -/
lemma interpGo_node : ∀ (l : List (ℚ × ℚ)) (tp vp : ℚ) (i : ℕ) (hi : i < l.length),
    l.Pairwise (fun p q : ℚ × ℚ => p.1 < q.1) → (∀ p ∈ l, tp < p.1) →
    interpGo (l[i].1) tp vp l = l[i].2 := by
  intro l
  induction l with
  | nil => intro tp vp i hi; simp at hi
  | cons hd tl ih =>
    obtain ⟨t1, v1⟩ := hd
    intro tp vp i hi hsorted hlt
    have hhd := hlt (t1, v1) (List.mem_cons_self _ _)
    cases i with
    | zero =>
      simp only [List.getElem_cons_zero]
      simp only [interpGo]
      rw [if_neg (lt_irrefl t1)]
      cases tl with
      | nil => rfl
      | cons hd2 tl2 =>
        obtain ⟨t2, v2⟩ := hd2
        have ht2 : t1 < t2 := (List.pairwise_cons.1 hsorted).1 (t2, v2) (List.mem_cons_self _ _)
        simp only [interpGo]
        rw [if_pos ht2]
        field_simp
    | succ j =>
      have hj : j < tl.length := by simpa using hi
      simp only [List.getElem_cons_succ]
      have hx : t1 < tl[j].1 :=
        (List.pairwise_cons.1 hsorted).1 tl[j] (List.getElem_mem hj)
      simp only [interpGo]
      rw [if_neg (not_lt.2 (le_of_lt hx))]
      exact ih t1 v1 j hj (List.pairwise_cons.1 hsorted).2
        (fun p hp => (List.pairwise_cons.1 hsorted).1 p hp)

/-- Interpolating a strictly sorted sample list at one of its own
timestamps returns the sample value. -/
lemma npInterp_node (l : List (ℚ × ℚ)) (i : ℕ) (hi : i < l.length)
    (hsorted : l.Pairwise (fun p q : ℚ × ℚ => p.1 < q.1)) :
    npInterp (l[i].1) l = l[i].2 := by
  cases l with
  | nil => simp at hi
  | cons hd tl =>
    obtain ⟨t0, v0⟩ := hd
    cases i with
    | zero =>
      simp only [List.getElem_cons_zero]
      simp only [npInterp]
      rw [if_neg (lt_irrefl t0)]
      cases tl with
      | nil => rfl
      | cons hd2 tl2 =>
        obtain ⟨t2, v2⟩ := hd2
        have ht2 : t0 < t2 := (List.pairwise_cons.1 hsorted).1 (t2, v2) (List.mem_cons_self _ _)
        simp only [interpGo]
        rw [if_pos ht2]
        field_simp
    | succ j =>
      have hj : j < tl.length := by simpa using hi
      simp only [List.getElem_cons_succ]
      have hx : t0 < tl[j].1 :=
        (List.pairwise_cons.1 hsorted).1 tl[j] (List.getElem_mem hj)
      simp only [npInterp]
      rw [if_neg (not_lt.2 (le_of_lt hx))]
      exact interpGo_node tl t0 v0 j hj (List.pairwise_cons.1 hsorted).2
        (fun p hp => (List.pairwise_cons.1 hsorted).1 p hp)

lemma valsOf_eq_map {p : List (ℚ × ℚ)} (hp : p ≠ []) :
    valsOf p = (gridOf p).map (fun x : ℤ => npInterp (x : ℚ) (sortedPoints p)) := by
  unfold valsOf gridOf interpolate_series
  rw [if_neg hp]

lemma gridSeries_grid (t0 : ℤ) {v : List ℚ} (hv : v ≠ []) :
    gridOf (gridSeries t0 v) =
      (List.range v.length).map (fun i : ℕ => t0 + (i : ℤ) * 3600) := by
  have hvl := List.length_pos.2 hv
  unfold gridOf interpolate_series
  rw [if_neg (gridSeries_ne_nil t0 hv)]
  dsimp only
  rw [sortedPoints_gridSeries, gridSeries_headI t0 hv, gridSeries_getLastD t0 hv]
  dsimp only
  rw [pyInt_intCast, pyInt_intCast]
  unfold arange
  simp only [Nat.cast_ofNat]
  have hcount : (t0 + 3600 * ((v.length - 1 : ℕ) : ℤ) + 1 - t0 + (3600 : ℤ) - 1).toNat / 3600
      = v.length := by omega
  rw [hcount]

lemma gridSeries_vals (t0 : ℤ) {v : List ℚ} (hv : v ≠ []) :
    valsOf (gridSeries t0 v) = v := by
  rw [valsOf_eq_map (gridSeries_ne_nil t0 hv), gridSeries_grid t0 hv,
    sortedPoints_gridSeries]
  apply List.ext_getElem
  · rw [List.length_map, List.length_map, List.length_range]
  · intro i h1 h2
    rw [List.length_map, List.length_map, List.length_range] at h1
    rw [List.getElem_map, List.getElem_map, List.getElem_range]
    have hgl : i < (gridSeries t0 v).length := by rw [gridSeries_length]; exact h1
    have hcast : ((t0 + (i : ℤ) * 3600 : ℤ) : ℚ) = (gridSeries t0 v)[i].1 := by
      rw [gridSeries_getElem t0 v i hgl]
      push_cast
      ring
    rw [hcast, npInterp_node _ i hgl (gridSeries_strict t0 v),
      gridSeries_getElem t0 v i hgl]
    dsimp only
    exact List.getD_eq_getElem v 0 h1

lemma gridSeries_gridOf_headI (t0 : ℤ) {v : List ℚ} (hv : v ≠ []) :
    (gridOf (gridSeries t0 v)).headI = t0 := by
  have hvl := List.length_pos.2 hv
  rw [gridSeries_grid t0 hv]
  have hne : (List.range v.length).map (fun i : ℕ => t0 + (i : ℤ) * 3600) ≠ [] := by
    simp only [ne_eq, List.map_eq_nil_iff, List.range_eq_nil]
    omega
  rw [headI_eq_getElem _ hne]
  simp only [List.get_eq_getElem]
  rw [List.getElem_map, List.getElem_range]
  norm_num

lemma gridSeries_gridOf_last (t0 : ℤ) {v : List ℚ} (hv : v ≠ []) :
    (gridOf (gridSeries t0 v)).getLastD 0 = t0 + ((v.length - 1 : ℕ) : ℤ) * 3600 := by
  have hvl := List.length_pos.2 hv
  rw [gridSeries_grid t0 hv]
  exact AP_getLastD t0 v.length hvl

lemma ws_gridSeries (t0 : ℤ) (k : ℕ) {v : List ℚ} (hv : v ≠ []) :
    windowStart (gridSeries t0 v) (gridSeries (t0 + 3600 * (k : ℤ)) v) =
      t0 + 3600 * (k : ℤ) := by
  unfold windowStart
  rw [gridSeries_gridOf_headI t0 hv, gridSeries_gridOf_headI _ hv]
  have hk : (0 : ℤ) ≤ (k : ℤ) := Int.ofNat_nonneg k
  exact max_eq_right (by omega)

lemma we_gridSeries (t0 : ℤ) (k : ℕ) {v : List ℚ} (hv : v ≠ []) :
    windowEnd (gridSeries t0 v) (gridSeries (t0 + 3600 * (k : ℤ)) v) =
      t0 + ((v.length - 1 : ℕ) : ℤ) * 3600 := by
  unfold windowEnd
  rw [gridSeries_gridOf_last t0 hv, gridSeries_gridOf_last _ hv]
  have hk : (0 : ℤ) ≤ (k : ℤ) := Int.ofNat_nonneg k
  exact min_eq_left (by omega)

/-! Masking an arithmetic-progression grid extracts a contiguous slice of
the value array. -/

lemma zip_map_range (f : ℕ → ℤ) (v : List ℚ) (n : ℕ) (hv : v.length = n) :
    ((List.range n).map f).zip v =
      (List.range n).map (fun i : ℕ => (f i, v.getD i 0)) := by
  apply List.ext_getElem
  · rw [List.length_zip, List.length_map, List.length_range, List.length_map,
      List.length_range, hv, min_self]
  · intro i h1 h2
    rw [List.length_zip, List.length_map, List.length_range, hv, min_self] at h1
    rw [List.getElem_zip, List.getElem_map, List.getElem_map, List.getElem_range]
    congr 1
    exact (List.getD_eq_getElem v 0 (by omega)).symm

lemma range_filter_interval (k1 k2 : ℕ) : ∀ n : ℕ,
    (List.range n).filter (fun i : ℕ => decide (k1 ≤ i ∧ i ≤ k2)) =
      List.range' k1 (min (k2 + 1) n - k1) := by
  intro n
  induction n with
  | zero => simp
  | succ n ih =>
    rw [List.range_succ, List.filter_append, ih]
    by_cases h1 : k1 ≤ n ∧ n ≤ k2
    · have hf : List.filter (fun i : ℕ => decide (k1 ≤ i ∧ i ≤ k2)) [n] = [n] := by
        simp [h1.1, h1.2]
      rw [hf]
      have hm1 : min (k2 + 1) n - k1 = n - k1 := by omega
      have hm2 : min (k2 + 1) (n + 1) - k1 = (n - k1) + 1 := by omega
      rw [hm1, hm2, List.range'_concat]
      congr 2
      omega
    · have hf : List.filter (fun i : ℕ => decide (k1 ≤ i ∧ i ≤ k2)) [n] = [] := by
        simp only [List.filter_cons, List.filter_nil]
        rw [if_neg (by simpa using h1)]
      rw [hf, List.append_nil]
      congr 1
      omega

lemma range'_map_getD (v : List ℚ) (k1 len : ℕ) (h : k1 + len ≤ v.length) :
    (List.range' k1 len).map (fun i : ℕ => v.getD i 0) = (v.drop k1).take len := by
  apply List.ext_getElem
  · rw [List.length_map, List.length_range', List.length_take, List.length_drop]
    omega
  · intro i h1 h2
    rw [List.length_map, List.length_range'] at h1
    rw [List.getElem_map, List.getElem_range']
    rw [List.getElem_take, List.getElem_drop]
    rw [List.getD_eq_getElem v 0 (by omega)]
    congr 1
    omega

lemma maskedVals_AP (a : ℤ) (n : ℕ) (v : List ℚ) (hv : v.length = n)
    (ws we : ℤ) (k1 k2 : ℕ)
    (hiff : ∀ i : ℕ, i < n →
      ((ws ≤ a + (i : ℤ) * 3600 ∧ a + (i : ℤ) * 3600 ≤ we) ↔ (k1 ≤ i ∧ i ≤ k2)))
    (hk2 : k2 + 1 ≤ n) :
    maskedVals ((List.range n).map (fun i : ℕ => a + (i : ℤ) * 3600)) v ws we =
      (v.drop k1).take (k2 + 1 - k1) := by
  unfold maskedVals
  rw [zip_map_range _ v n hv]
  rw [List.filter_map]
  have hcongr : List.filter
        ((fun q : ℤ × ℚ => decide (ws ≤ q.1 ∧ q.1 ≤ we)) ∘
          (fun i : ℕ => (a + (i : ℤ) * 3600, v.getD i 0)))
        (List.range n) =
      List.filter (fun i : ℕ => decide (k1 ≤ i ∧ i ≤ k2)) (List.range n) := by
    apply List.filter_congr
    intro i hi
    rw [List.mem_range] at hi
    simp only [Function.comp_apply]
    rw [decide_eq_decide]
    exact hiff i hi
  rw [hcongr, range_filter_interval]
  have hmin : min (k2 + 1) n - k1 = k2 + 1 - k1 := by omega
  rw [hmin, List.map_map]
  by_cases hk1 : k1 ≤ k2
  · have : (Prod.snd ∘ fun i : ℕ => (a + (i : ℤ) * 3600, v.getD i 0)) =
        (fun i : ℕ => v.getD i 0) := rfl
    rw [this]
    exact range'_map_getD v k1 (k2 + 1 - k1) (by omega)
  · have hlen : k2 + 1 - k1 = 0 := by omega
    rw [hlen]
    simp

lemma refVals_gridSeries (t0 : ℤ) (k : ℕ) {v : List ℚ} (hv : v ≠ [])
    (hk : k + 1 ≤ v.length) :
    refVals (gridSeries t0 v) (gridSeries (t0 + 3600 * (k : ℤ)) v) = v.drop k := by
  have hvl := List.length_pos.2 hv
  unfold refVals
  rw [gridSeries_grid t0 hv, gridSeries_vals t0 hv,
    ws_gridSeries t0 k hv, we_gridSeries t0 k hv]
  rw [maskedVals_AP t0 v.length v rfl _ _ k (v.length - 1)
    (by intro i hi; constructor
        · rintro ⟨h1, h2⟩
          constructor
          · omega
          · omega
        · rintro ⟨h1, h2⟩
          constructor
          · omega
          · omega)
    (by omega)]
  have h1 : v.length - 1 + 1 - k = (v.drop k).length := by
    rw [List.length_drop]
    omega
  rw [h1, List.take_length]

lemma tgtVals_gridSeries (t0 : ℤ) (k : ℕ) {v : List ℚ} (hv : v ≠ [])
    (hk : k + 1 ≤ v.length) :
    tgtVals (gridSeries t0 v) (gridSeries (t0 + 3600 * (k : ℤ)) v) =
      v.take (v.length - k) := by
  have hvl := List.length_pos.2 hv
  unfold tgtVals
  rw [gridSeries_grid _ hv, gridSeries_vals _ hv,
    ws_gridSeries t0 k hv, we_gridSeries t0 k hv]
  rw [maskedVals_AP (t0 + 3600 * (k : ℤ)) v.length v rfl _ _ 0 (v.length - 1 - k)
    (by intro i hi; constructor
        · rintro ⟨h1, h2⟩
          constructor
          · omega
          · omega
        · rintro ⟨h1, h2⟩
          constructor
          · omega
          · omega)
    (by omega)]
  rw [List.drop_zero]
  congr 1
  omega

/-- C5 (amended): for a reference series sampled exactly on the hourly
grid and a copy of it shifted forward by `k` grid steps, the estimator
returns exactly `k`, provided the inputs are non-degenerate and no
earlier lag ties: the series has at least 10 samples, `k ≤ max_lag`, the
search reaches lag `k` (`2k + 6` samples), the central overlap slice and
both masked arrays are nonconstant, and no lag below `k` attains Pearson
correlation exactly 1.  (The pure-ramp counterexample violates the last
hypothesis.) -/
theorem C5_amended_self_lag (t0 : ℤ) (v : List ℚ) (k m : ℕ)
    (hn : 10 ≤ v.length) (hkm : k ≤ m) (hk6 : 2 * k + 6 ≤ v.length)
    (hmid : ssd ((v.drop k).take (v.length - k - k)) ≠ 0)
    (href : ssd (v.drop k) ≠ 0) (htgt : ssd (v.take (v.length - k)) ≠ 0)
    (hties : ∀ l, l < k → ∀ d,
      corrS ((v.drop k).take (v.length - k - l)) ((v.take (v.length - k)).drop l) = some d →
      ¬(0 < d.1 ∧ d.1 ^ 2 = d.2)) :
    compute_lag_hours (gridSeries t0 v) (gridSeries (t0 + 3600 * (k : ℤ)) v) m =
      .ok (some k) := by
  have hv : v ≠ [] := by
    intro hc
    rw [hc] at hn
    simp at hn
  have hvl := List.length_pos.2 hv
  have hk1 : k + 1 ≤ v.length := by omega
  set n := v.length with hnn
  have hBne := gridSeries_ne_nil t0 hv
  have hTne := gridSeries_ne_nil (t0 + 3600 * (k : ℤ)) hv
  set vb := v.drop k with hvb
  set vt := v.take (n - k) with hvt
  have hvbl : vb.length = n - k := by rw [hvb, List.length_drop]
  have hvtl : vt.length = n - k := by
    rw [hvt, List.length_take]
    omega
  -- slices of the loop
  have hsliceS : ∀ l, sliceShift vt l = vt.drop l := fun l => rfl
  have hsliceB : ∀ l, sliceBase vb vt l = vb.take (n - k - l) := by
    intro l
    unfold sliceBase sliceShift
    rw [List.length_drop, hvtl]
  -- the central slice
  have hmid' : sliceShift vt k = vb.take (n - k - k) := by
    rw [hsliceS, hvt, hvb, List.drop_take]
  have hcorrk : corrS (sliceBase vb vt k) (sliceShift vt k) =
      some (ssd (vb.take (n - k - k)), ssd (vb.take (n - k - k)) * ssd (vb.take (n - k - k))) := by
    rw [hsliceB, hmid']
    unfold corrS
    rw [if_neg (by push_neg; exact ⟨hmid, hmid⟩), sxyOf_self]
  have hSpos : 0 < ssd (vb.take (n - k - k)) :=
    lt_of_le_of_ne (ssd_nonneg _) (Ne.symm hmid)
  have hRk : ((ssd (vb.take (n - k - k)) : ℚ) : ℝ) /
      Real.sqrt (((ssd (vb.take (n - k - k)) * ssd (vb.take (n - k - k)) : ℚ) : ℝ)) = 1 :=
    self_corr_real_one hSpos
  have hEvk : EvAt vt m k := by
    constructor
    · exact hkm
    · rw [hvtl]; omega
  -- unfold the guards of compute_lag_hours
  unfold compute_lag_hours
  rw [if_neg (not_or.mpr ⟨hBne, hTne⟩)]
  rw [if_neg (by
    rw [gridSeries_vals t0 hv, gridSeries_vals _ hv]
    omega)]
  rw [if_neg (by
    rw [ws_gridSeries t0 k hv, we_gridSeries t0 k hv]
    omega)]
  rw [refVals_gridSeries t0 k hv hk1, tgtVals_gridSeries t0 k hv hk1]
  rw [if_neg (by
    push_neg
    constructor
    · intro _; exact href
    · intro _; exact htgt)]
  -- run the loop
  obtain ⟨L, hL⟩ := lagLoop_no_error vb vt (by omega) (m + 1) 0 0 (-999, 1)
  rw [hL]
  have hLk : L = k := by
    rcases lagLoop_spec0 vb vt m L hL with ⟨_, hall⟩ | ⟨hEvL, c, hcorrL, hmax⟩
    · exact absurd (hall k hEvk) (by rw [hcorrk]; simp)
    · rcases lt_trichotomy L k with hlt | heq | hgt
      · exfalso
        have hbounds := corrS_prop hcorrL
        have hnot : ¬(0 < c.1 ∧ c.1 ^ 2 = c.2) := by
          apply hties L hlt c
          rw [← hsliceB L, ← hsliceS L]
          exact hcorrL
        have hlt1 : (c.1 : ℝ) / Real.sqrt (c.2 : ℝ) < 1 :=
          corr_real_lt_one hbounds.1 hbounds.2 hnot
        have hle := (hmax k hEvk _ hcorrk).1
        rw [hRk] at hle
        linarith
      · exact heq
      · exfalso
        have hbounds := corrS_prop hcorrL
        have hle1 : (c.1 : ℝ) / Real.sqrt (c.2 : ℝ) ≤ 1 :=
          corr_real_le_one hbounds.1 hbounds.2
        have hstrict := (hmax k hEvk _ hcorrk).2 hgt
        rw [hRk] at hstrict
        linarith
  rw [hLk]
  rfl

theorem C5_amended_self_lag_witness :
    compute_lag_hours (gridSeries 0 [0, 1, 0, 0, 0, 0, 0, 0, 0, 0])
      (gridSeries ((0 : ℤ) + 3600 * ((1 : ℕ) : ℤ)) [0, 1, 0, 0, 0, 0, 0, 0, 0, 0]) 72 =
      .ok (some 1) :=
  C5_amended_self_lag 0 [0, 1, 0, 0, 0, 0, 0, 0, 0, 0] 1 72
    (by norm_num)
    (by norm_num)
    (by norm_num)
    (by norm_num [ssd, sMean])
    (by norm_num [ssd, sMean])
    (by norm_num [ssd, sMean])
    (by
      intro l hl d hd
      have hl0 : l = 0 := by omega
      subst hl0
      norm_num [corrS, ssd, sMean, sxyOf] at hd
      rw [← hd]
      norm_num)
